import Mathlib

/-!
# Verification of the ComponentWorkerV3 optimization engine (pic2react)

Shallow embedding of `src/core/componentWorkerV3.js`: the element
normalization (`extractBaseParams`), the strict quality evaluator
(`evaluateComponentQualityStrict` and its four sub-scores), the variant
generator (`generateParamVariations`, `generateColorVariations`,
`generateAdaptiveVariants`), the complexity analysis
(`analyzeComplexity`, `selectKeyParams`, `calculateMaxIterations`,
`calculateVariationIntensity`), the adaptive optimization loop
(`performAdaptiveOptimization`), and the per-element batch pipeline
(`processStructuredData`'s per-element body, fallback included).

Modelling conventions:
* JavaScript numbers are modelled as exact rationals extended with the
  IEEE specials `NaN`, `+Infinity`, `-Infinity` (type `JNum`); float
  rounding is not modelled.  All comparisons mirror JS semantics
  (`NaN` compares false).
* A JS expression that throws `TypeError` (a property read on
  `undefined`, or a string method called on a non-string) is modelled
  by `Except.error JsError.typeError`; everything else is total, as in
  JS arithmetic.
* Descriptor objects are modelled with `Option` fields (`none` =
  absent/undefined); JS truthiness of `0`, `""`, `undefined` is
  modelled explicitly at each `||` / `&&` use.
-/

set_option allowUnsafeReducibility true

attribute [local semireducible] Rat.add Rat.mul Rat.sub Rat.div Rat.inv Rat.neg
  Rat.normalize Rat.ofScientific

deriving instance DecidableEq for Except

namespace CWV3

/-- A JavaScript number: an exact rational, or one of the IEEE special
values `NaN`, `+Infinity`, `-Infinity`. -/
inductive JNum where
  | fin : ℚ → JNum
  | nan : JNum
  | pinf : JNum
  | ninf : JNum
deriving DecidableEq

/-- JS addition (`NaN` absorbs; `Infinity + -Infinity = NaN`). -/
def jadd : JNum → JNum → JNum
  | .fin a, .fin b => .fin (a + b)
  | .fin _, .pinf => .pinf
  | .pinf, .fin _ => .pinf
  | .pinf, .pinf => .pinf
  | .fin _, .ninf => .ninf
  | .ninf, .fin _ => .ninf
  | .ninf, .ninf => .ninf
  | _, _ => .nan

/-- JS unary negation. -/
def jneg : JNum → JNum
  | .fin a => .fin (-a)
  | .pinf => .ninf
  | .ninf => .pinf
  | .nan => .nan

/-- JS subtraction. -/
def jsub (a b : JNum) : JNum := jadd a (jneg b)

/-- JS multiplication (`0 * Infinity = NaN`, signs propagate). -/
def jmul : JNum → JNum → JNum
  | .fin a, .fin b => .fin (a * b)
  | .fin a, .pinf => if 0 < a then .pinf else if a < 0 then .ninf else .nan
  | .fin a, .ninf => if 0 < a then .ninf else if a < 0 then .pinf else .nan
  | .pinf, .fin b => if 0 < b then .pinf else if b < 0 then .ninf else .nan
  | .ninf, .fin b => if 0 < b then .ninf else if b < 0 then .pinf else .nan
  | .pinf, .pinf => .pinf
  | .pinf, .ninf => .ninf
  | .ninf, .pinf => .ninf
  | .ninf, .ninf => .pinf
  | _, _ => .nan

/-- JS division (`x/0` is a signed infinity for `x ≠ 0`, `0/0 = NaN`,
`x/±Infinity = 0`, `±Infinity/±Infinity = NaN`).  Signed zero is not
modelled. -/
def jdiv : JNum → JNum → JNum
  | .fin a, .fin b =>
      if b = 0 then (if a = 0 then .nan else if 0 < a then .pinf else .ninf)
      else .fin (a / b)
  | .fin _, .pinf => .fin 0
  | .fin _, .ninf => .fin 0
  | .pinf, .fin b => if b < 0 then .ninf else .pinf
  | .ninf, .fin b => if b < 0 then .pinf else .ninf
  | _, _ => .nan

/-- JS `Math.abs`. -/
def jabs : JNum → JNum
  | .fin a => .fin |a|
  | .nan => .nan
  | _ => .pinf

/-- JS `Math.max` on two arguments (`NaN` absorbs). -/
def jmaxJ : JNum → JNum → JNum
  | .nan, _ => .nan
  | _, .nan => .nan
  | .fin a, .fin b => .fin (max a b)
  | .pinf, _ => .pinf
  | _, .pinf => .pinf
  | .ninf, x => x
  | x, .ninf => x

/-- JS `Math.min` on two arguments (`NaN` absorbs). -/
def jminJ : JNum → JNum → JNum
  | .nan, _ => .nan
  | _, .nan => .nan
  | .fin a, .fin b => .fin (min a b)
  | .ninf, _ => .ninf
  | _, .ninf => .ninf
  | .pinf, x => x
  | x, .pinf => x

/-- JS `Math.round`: half-integers round toward `+Infinity`. -/
def jround : JNum → JNum
  | .fin a => .fin ((⌊a + 1/2⌋ : ℤ) : ℚ)
  | x => x

/-- JS `<` as a boolean (any comparison with `NaN` is false). -/
def jltb : JNum → JNum → Bool
  | .fin a, .fin b => a < b
  | .fin _, .pinf => true
  | .ninf, .fin _ => true
  | .ninf, .pinf => true
  | _, _ => false

/-- JS `>` as a boolean. -/
def jgtb (a b : JNum) : Bool := jltb b a

/-- JS `>=` as a boolean (false on `NaN`). -/
def jgeb : JNum → JNum → Bool
  | .fin a, .fin b => b ≤ a
  | .pinf, .fin _ => true
  | .pinf, .pinf => true
  | .pinf, .ninf => true
  | .fin _, .ninf => true
  | .ninf, .ninf => true
  | _, _ => false

/-- `Math.max(0, Math.min(1, v))`, the final clamp of the quality
evaluator. -/
def jclamp01 (v : JNum) : JNum := jmaxJ (.fin 0) (jminJ (.fin 1) v)

/-- An absent (`undefined`) numeric field read as a JS number. -/
def jOfOpt : Option ℚ → JNum
  | some q => .fin q
  | none => .nan

/-! ## String helpers (JS built-ins used by the worker) -/

/-- Hex digit test, case-insensitive as in `parseInt(s, 16)`. -/
def isHexDigitChar (c : Char) : Bool :=
  c.isDigit || ('a' ≤ c && c ≤ 'f') || ('A' ≤ c && c ≤ 'F')

/-- Value of a hex digit. -/
def hexDigitVal (c : Char) : ℕ :=
  if c.isDigit then c.toNat - 48
  else if 'a' ≤ c && c ≤ 'f' then c.toNat - 87
  else if 'A' ≤ c && c ≤ 'F' then c.toNat - 55
  else 0

/-- `parseInt(s, 16)`: parse the longest leading run of hex digits;
`none` models the `NaN` result when no digit leads the string.
(Leading whitespace, a sign, and a `0x` marker are not modelled; none
of the strings reached in this development carry them.) -/
def parseHexLeading (s : String) : Option ℕ :=
  let ds := s.toList.takeWhile (fun c => isHexDigitChar c)
  if ds.isEmpty then none
  else some (ds.foldl (fun acc c => 16 * acc + hexDigitVal c) 0)

/-- Leading decimal-digit run of a character list, `none` when empty. -/
def digitsLeadingVal (cs : List Char) : Option ℕ :=
  let ds := cs.takeWhile Char.isDigit
  if ds.isEmpty then none
  else some (ds.foldl (fun acc c => 10 * acc + (c.toNat - 48)) 0)

/-- `parseInt(s)` in base 10: optional sign then the longest leading
digit run; `none` models `NaN`.  (Leading whitespace is not
modelled.) -/
def parseIntLeading (s : String) : Option ℤ :=
  match s.toList with
  | '-' :: rest => (digitsLeadingVal rest).map (fun n => -(n : ℤ))
  | '+' :: rest => (digitsLeadingVal rest).map (fun n => (n : ℤ))
  | cs => (digitsLeadingVal cs).map (fun n => (n : ℤ))

/-- `parseInt(s) || 14`, the font-size recovery idiom: `NaN` and `0`
are falsy, so both fall back to `14`; the result is never `0`. -/
def jsParseIntOr14 (s : String) : ℤ :=
  match parseIntLeading s with
  | some n => if n = 0 then 14 else n
  | none => 14

/-- Drop the first `#` of a character list, keeping everything else. -/
def stripHashAux : List Char → List Char
  | [] => []
  | c :: rest => if c = '#' then rest else c :: stripHashAux rest

/-- `s.replace('#', '')`: remove the first occurrence of `#`. -/
def stripFirstHash (s : String) : String :=
  String.mk (stripHashAux s.toList)

/-- `s.startsWith('#')`, decided on the character list. -/
def headIsHash (s : String) : Bool :=
  match s.toList with
  | c :: _ => c = '#'
  | [] => false

/-- Lowercase hexadecimal rendering of a natural, as
`Number.prototype.toString(16)` on a nonnegative integer. -/
def natToHex (n : ℕ) : String := String.mk (Nat.toDigits 16 n)

/-- `padStart(2, '0')`. -/
def padStart2 (s : String) : String :=
  if s.length < 2 then String.mk (List.replicate (2 - s.length) '0') ++ s else s

/-- JS truthiness of a string: empty is falsy. -/
def truthyS (s : String) : Bool := s != ""

/-- JS truthiness of a possibly-absent string field. -/
def truthyOS : Option String → Bool
  | some s => s != ""
  | none => false

/-- `o || d` for a possibly-absent numeric field (`0` is falsy). -/
def jsOrQ (o : Option ℚ) (d : ℚ) : ℚ :=
  match o with
  | some q => if q = 0 then d else q
  | none => d

/-- `o || d` for a possibly-absent string field (`""` is falsy). -/
def jsOrS (o : Option String) (d : String) : String :=
  match o with
  | some s => if s = "" then d else s
  | none => d

/-! ## Data model -/

/-- The exception kind this embedding distinguishes: the `TypeError`
raised by a property read on `undefined` or a string method called on
a non-string value. -/
inductive JsError where
  | typeError : JsError
deriving DecidableEq

/-- `element.position`.  Fields are `Option` because the upstream
descriptor may omit any of them. -/
structure Position where
  x : Option ℚ := none
  y : Option ℚ := none
  width : Option ℚ := none
  height : Option ℚ := none
deriving DecidableEq

/-- `element.properties`, restricted to the keys the worker reads.
For `data`/`config`/`columns` only presence and truthiness matter
(complexity analysis), so they are modelled as `Option Bool`:
`isSome` = the key is present, the payload = its JS truthiness.
Property values are typed `Option String` here: this is the value
space of the descriptors the pipeline claims exercise.  The evaluator
in the source accepts arbitrary JSON values and throws on truthy
non-string colors; that full behaviour is embedded separately over
`PropsV`/`ParamsV` below, with every slot holding a `JsVal`. -/
structure ElementProps where
  title : Option String := none
  text : Option String := none
  value : Option String := none
  color : Option String := none
  backgroundColor : Option String := none
  textColor : Option String := none
  fontSize : Option String := none
  fontWeight : Option String := none
  borderRadius : Option String := none
  border : Option String := none
  padding : Option String := none
  margin : Option String := none
  data : Option Bool := none
  config : Option Bool := none
  columns : Option Bool := none
deriving DecidableEq

/-- `Object.keys(properties).length`, over the modelled keys. -/
def propsKeyCount (p : ElementProps) : ℕ :=
  (if p.title.isSome then 1 else 0) + (if p.text.isSome then 1 else 0) +
  (if p.value.isSome then 1 else 0) + (if p.color.isSome then 1 else 0) +
  (if p.backgroundColor.isSome then 1 else 0) + (if p.textColor.isSome then 1 else 0) +
  (if p.fontSize.isSome then 1 else 0) + (if p.fontWeight.isSome then 1 else 0) +
  (if p.borderRadius.isSome then 1 else 0) + (if p.border.isSome then 1 else 0) +
  (if p.padding.isSome then 1 else 0) + (if p.margin.isSome then 1 else 0) +
  (if p.data.isSome then 1 else 0) + (if p.config.isSome then 1 else 0) +
  (if p.columns.isSome then 1 else 0)

/-- One detected-element descriptor. -/
structure Element where
  id : String
  type : String
  properties : Option ElementProps := none
  position : Option Position := none
deriving DecidableEq

/-- The fully-defaulted candidate parameter set built by
`extractBaseParams`.  The `data`/`config`/`columns` copies are omitted:
they are only consumed by the code templates, which are outside the
scope of the claims, and their parameter variations are always the
identity (no entry in `paramVariations`). -/
structure BaseParams where
  width : ℚ
  height : ℚ
  color : String
  backgroundColor : String
  textColor : String
  fontSize : String
  fontWeight : String
  borderRadius : String
  border : String
  padding : String
  margin : String
  title : String
  text : String
  value : String
deriving DecidableEq

/-- `extractBaseParams(element)`. -/
def extractBaseParams (e : Element) : BaseParams :=
  { width := jsOrQ (e.position.bind fun p => p.width) 300
    height := jsOrQ (e.position.bind fun p => p.height) 200
    color := jsOrS (e.properties.bind fun p => p.color) "#1976d2"
    backgroundColor := jsOrS (e.properties.bind fun p => p.backgroundColor) "#ffffff"
    textColor := jsOrS (e.properties.bind fun p => p.textColor) "#000000"
    fontSize := jsOrS (e.properties.bind fun p => p.fontSize) "14px"
    fontWeight := jsOrS (e.properties.bind fun p => p.fontWeight) "400"
    borderRadius := jsOrS (e.properties.bind fun p => p.borderRadius) "4px"
    border := jsOrS (e.properties.bind fun p => p.border) "none"
    padding := jsOrS (e.properties.bind fun p => p.padding) "16px"
    margin := jsOrS (e.properties.bind fun p => p.margin) "8px"
    title := jsOrS (e.properties.bind fun p => p.title) ""
    text := jsOrS (e.properties.bind fun p => p.text) ""
    value := jsOrS (e.properties.bind fun p => p.value) "" }

/-- A candidate component.  The JS object's `name` string and the
back-reference to the element are omitted: neither is consulted by the
optimization loop or by any claim. -/
structure Candidate where
  id : String
  type : String
  componentType : String
  baseParams : BaseParams
  quality : ℚ
  iterations : ℕ
deriving DecidableEq

/-- `this.typeMapping`. -/
def typeMappingLookup : String → Option String := fun t =>
  if t = "chart" then some "ChartComponent"
  else if t = "card" then some "CardComponent"
  else if t = "table" then some "TableComponent"
  else if t = "button" then some "ButtonComponent"
  else if t = "header" then some "HeaderComponent"
  else if t = "navigation" then some "NavigationComponent"
  else if t = "sidebar" then some "SidebarComponent"
  else if t = "form" then some "FormComponent"
  else if t = "input" then some "InputComponent"
  else if t = "text" then some "TextComponent"
  else if t = "image" then some "ImageComponent"
  else if t = "container" then some "ContainerComponent"
  else none

/-- Stage 1, `performBasicMapping`: base candidate with the hardcoded
quality `0.3` and `iterations: 0`. -/
def performBasicMapping (e : Element) : Candidate :=
  { id := e.id
    type := e.type
    componentType := (typeMappingLookup e.type).getD "GenericComponent"
    baseParams := extractBaseParams e
    quality := 0.3
    iterations := 0 }

/-! ## Quality evaluator -/

/-- `evaluateSizeMatch(params, position)`: relative width/height error
with a `max(0, 1 - 2·err)` per-axis score, averaged; `0` when the
descriptor has no position. -/
def evaluateSizeMatch (params : BaseParams) (position : Option Position) : JNum :=
  match position with
  | none => .fin 0
  | some pos =>
    let widthError := jdiv (jabs (jsub (.fin params.width) (jOfOpt pos.width))) (jOfOpt pos.width)
    let heightError := jdiv (jabs (jsub (.fin params.height) (jOfOpt pos.height))) (jOfOpt pos.height)
    let widthScore := jmaxJ (.fin 0) (jsub (.fin 1) (jmul widthError (.fin 2)))
    let heightScore := jmaxJ (.fin 0) (jsub (.fin 1) (jmul heightError (.fin 2)))
    jdiv (jadd widthScore heightScore) (.fin 2)

/-- Rational stand-in for `Math.sqrt(x)`: a floor approximation with
six fractional decimal digits.  It is exact at `0` (the only point
whose exact value any theorem here uses) and stays within `[0, √x]`. -/
def ratSqrtLow (x : ℚ) : ℚ :=
  if x ≤ 0 then 0
  else ((Nat.sqrt ((x.num.toNat * 10 ^ 12) / x.den) : ℚ) / 10 ^ 6)

/-- `Math.sqrt(distSq) / Math.sqrt(255² · 3)` of the color-similarity
calculation, as a single rational operation (the ratio equals
`√(distSq / 195075)`).  `NaN` propagates as in JS. -/
def jsqrtFrac : JNum → JNum
  | .fin d => if d < 0 then .nan else .fin (ratSqrtLow (d / 195075))
  | .pinf => .pinf
  | _ => .nan

/-- `parseInt(hexPair, 16)` as a JS number. -/
def jOfHex (s : String) : JNum :=
  match parseHexLeading s with
  | some n => .fin n
  | none => .nan

/-- JS `x ** 2`. -/
def jsq (v : JNum) : JNum := jmul v v

/-- `calculateColorSimilarity(color1, color2)`: `1.0` on identical
strings; else strip the first `#`, require both remainders to have
length 6, parse three channel pairs, and score
`max(0, 1 - dist/maxDist)`; any other shape scores `0.5`.  Channel
pairs that fail to parse make the distance `NaN`, which propagates to
a `NaN` similarity (JS `Math.max(0, NaN)` is `NaN`). -/
def calculateColorSimilarity (color1 color2 : String) : JNum :=
  if color1 = color2 then .fin 1
  else
    let hex1 := stripFirstHash color1
    let hex2 := stripFirstHash color2
    if hex1.length = 6 && hex2.length = 6 then
      let r1 := jOfHex (hex1.take 2)
      let g1 := jOfHex ((hex1.drop 2).take 2)
      let b1 := jOfHex ((hex1.drop 4).take 2)
      let r2 := jOfHex (hex2.take 2)
      let g2 := jOfHex ((hex2.drop 2).take 2)
      let b2 := jOfHex ((hex2.drop 4).take 2)
      let distSq := jadd (jadd (jsq (jsub r1 r2)) (jsq (jsub g1 g2))) (jsq (jsub b1 b2))
      jmaxJ (.fin 0) (jsub (.fin 1) (jsqrtFrac distSq))
    else .fin 0.5

/-- `evaluateColorMatch(params, properties)`: weighted channel checks
(primary 0.5, background 0.3, text 0.2), neutral `0.5` when no channel
is present on both sides.  `properties` is already known non-undefined
here; the undefined case is handled by the caller. -/
def evaluateColorMatch (params : BaseParams) (props : ElementProps) : JNum :=
  let base : JNum × ℕ := (.fin 0, 0)
  let step1 : JNum × ℕ :=
    if truthyOS props.color && truthyS params.color then
      (jadd base.1 (jmul (calculateColorSimilarity (props.color.getD "") params.color) (.fin 0.5)), base.2 + 1)
    else base
  let step2 : JNum × ℕ :=
    if truthyOS props.backgroundColor && truthyS params.backgroundColor then
      (jadd step1.1 (jmul (calculateColorSimilarity (props.backgroundColor.getD "") params.backgroundColor) (.fin 0.3)), step1.2 + 1)
    else step1
  let step3 : JNum × ℕ :=
    if truthyOS props.textColor && truthyS params.textColor then
      (jadd step2.1 (jmul (calculateColorSimilarity (props.textColor.getD "") params.textColor) (.fin 0.2)), step2.2 + 1)
    else step2
  if 0 < step3.2 then step3.1 else .fin 0.5

/-- `evaluateTypographyMatch(params, properties)`: font-size relative
error with a ×3 penalty (weight 0.4), exact font-weight match 1.0 /
mismatch 0.5 (weight 0.3), text-color similarity (weight 0.3); neutral
`0.5` when no sub-check applies.  `parseInt(...) || 14` keeps the
divisor nonzero. -/
def evaluateTypographyMatch (params : BaseParams) (props : ElementProps) : JNum :=
  let base : JNum × ℕ := (.fin 0, 0)
  let step1 : JNum × ℕ :=
    if truthyOS props.fontSize && truthyS params.fontSize then
      let fontSize1 : ℚ := (jsParseIntOr14 (props.fontSize.getD "") : ℚ)
      let fontSize2 : ℚ := (jsParseIntOr14 params.fontSize : ℚ)
      let fontSizeError : ℚ := |fontSize1 - fontSize2| / fontSize1
      let fontSizeScore : ℚ := max 0 (1 - fontSizeError * 3)
      (jadd base.1 (.fin (fontSizeScore * 0.4)), base.2 + 1)
    else base
  let step2 : JNum × ℕ :=
    if truthyOS props.fontWeight && truthyS params.fontWeight then
      let weightMatch : ℚ := if props.fontWeight.getD "" = params.fontWeight then 1 else 0.5
      (jadd step1.1 (.fin (weightMatch * 0.3)), step1.2 + 1)
    else step1
  let step3 : JNum × ℕ :=
    if truthyOS props.textColor && truthyS params.textColor then
      (jadd step2.1 (jmul (calculateColorSimilarity (props.textColor.getD "") params.textColor) (.fin 0.3)), step2.2 + 1)
    else step2
  if 0 < step3.2 then step3.1 else .fin 0.5

/-- `evaluateContentMatch(params, properties)`: exact match 1.0 /
partial credit 0.7 for each of title (0.4), text (0.3), value (0.3);
neutral `0.5` when none applies. -/
def evaluateContentMatch (params : BaseParams) (props : ElementProps) : JNum :=
  let base : ℚ × ℕ := (0, 0)
  let step1 : ℚ × ℕ :=
    if truthyOS props.title && truthyS params.title then
      (base.1 + (if props.title.getD "" = params.title then (1 : ℚ) else 0.7) * 0.4, base.2 + 1)
    else base
  let step2 : ℚ × ℕ :=
    if truthyOS props.text && truthyS params.text then
      (step1.1 + (if props.text.getD "" = params.text then (1 : ℚ) else 0.7) * 0.3, step1.2 + 1)
    else step1
  let step3 : ℚ × ℕ :=
    if truthyOS props.value && truthyS params.value then
      (step2.1 + (if props.value.getD "" = params.value then (1 : ℚ) else 0.7) * 0.3, step2.2 + 1)
    else step2
  if 0 < step3.2 then .fin step3.1 else .fin 0.5

/-- `evaluateComponentQualityStrict(component, element)`: the weighted
sum (size 0.4, color 0.25, typography 0.2, content 0.15) clamped to
`[0, 1]`.  When `element.properties` is `undefined`, the first
property read inside `evaluateColorMatch` throws `TypeError`, which is
the `.error` branch. -/
def evaluateComponentQualityStrict (params : BaseParams) (element : Element) :
    Except JsError JNum :=
  let sizeScore := evaluateSizeMatch params element.position
  match element.properties with
  | none => .error .typeError
  | some props =>
    let colorScore := evaluateColorMatch params props
    let typographyScore := evaluateTypographyMatch params props
    let contentScore := evaluateContentMatch params props
    .ok (jclamp01 (jadd (jadd (jadd (jmul sizeScore (.fin 0.4)) (jmul colorScore (.fin 0.25)))
      (jmul typographyScore (.fin 0.2))) (jmul contentScore (.fin 0.15))))

/-! ## Complexity analysis and iteration budget

`analyzeComplexity` feeds `Math.log(area + 1)` into a rational model.
`Math.log` is transcendental, so the embedding is parametric in a
function `L : ℚ → JNum` standing for it: every universally-quantified
theorem below holds for every `L`.  `jsLogModel` instantiates `L` for
the closed concrete-run statements; it is exact on every argument
whose value those runs' conclusions depend on. -/

/-- `element.properties?.data`-style truthiness. -/
def truthyOB : Option Bool → Bool
  | some b => b
  | none => false

/-- The empty `ElementProps`, i.e. the `{}` of `element.properties || {}`. -/
def emptyProps : ElementProps := {}

/-- `analyzeComplexity(element)`: property count ×0.1, `log(area+1)`
×0.05, +0.3 for a data blob, +0.2 for columns, clamped by
`Math.min(1, ·)`.  A negative area makes the log `NaN`, which
poisons the whole value (`Math.min(1, NaN) = NaN`). -/
def analyzeComplexity (L : ℚ → JNum) (e : Element) : JNum :=
  let keyPart : ℚ := (propsKeyCount (e.properties.getD emptyProps) : ℚ) * 0.1
  let area : ℚ := ((e.position.bind fun p => p.width).getD 0) *
    ((e.position.bind fun p => p.height).getD 0)
  let logPart : JNum := jmul (L (area + 1)) (.fin 0.05)
  let dataPart : ℚ := if truthyOB (e.properties.bind fun p => p.data) then 0.3 else 0
  let colPart : ℚ := if truthyOB (e.properties.bind fun p => p.columns) then 0.2 else 0
  jminJ (.fin 1) (jadd (jadd (jadd (.fin keyPart) logPart) (.fin dataPart)) (.fin colPart))

/-- `this.optimizationParams`: the per-type key-parameter lists. -/
def optimizationParamsLookup : String → Option (List String) := fun t =>
  if t = "chart" then some ["width", "height", "color", "data", "config"]
  else if t = "card" then some ["width", "height", "padding", "borderRadius", "backgroundColor"]
  else if t = "table" then some ["width", "height", "columns", "data", "styling"]
  else if t = "button" then some ["width", "height", "color", "backgroundColor", "borderRadius"]
  else if t = "text" then some ["fontSize", "fontWeight", "color", "lineHeight"]
  else if t = "image" then some ["width", "height", "objectFit", "borderRadius"]
  else none

/-- `selectKeyParams(element)`: first 2 / all / first half (rounded
up) of the type's parameter list, by complexity class.  A `NaN`
complexity fails both comparisons and lands in the middle branch. -/
def selectKeyParams (L : ℚ → JNum) (e : Element) : List String :=
  let allParams := (optimizationParamsLookup e.type).getD ["width", "height"]
  let complexity := analyzeComplexity L e
  if jltb complexity (.fin 0.3) then allParams.take 2
  else if jgtb complexity (.fin 0.7) then allParams
  else allParams.take ((allParams.length + 1) / 2)

/-- `calculateMaxIterations(element)`: 5 / 8 / 12 by complexity class
(a `NaN` complexity fails both `<` tests and yields 12). -/
def calculateMaxIterations (L : ℚ → JNum) (e : Element) : ℕ :=
  let complexity := analyzeComplexity L e
  if jltb complexity (.fin 0.3) then 5
  else if jltb complexity (.fin 0.7) then 8
  else 12

/-- `calculateVariationIntensity(iteration, maxIterations,
stagnationCount) = min(0.3, 0.05 + (iteration/maxIterations)·0.15 +
stagnationCount·0.05)`. -/
def calculateVariationIntensity (iteration maxIterations stagnationCount : ℕ) : ℚ :=
  let progress : ℚ := (iteration : ℚ) / (maxIterations : ℚ)
  let baseIntensity : ℚ := 0.05 + progress * 0.15
  let stagnationBoost : ℚ := (stagnationCount : ℚ) * 0.05
  min 0.3 (baseIntensity + stagnationBoost)

/-! ## Variant generation -/

/-- A JS value stored in a `baseParams` slot: a number, a string,
`undefined` (an absent key), or a numeric special. -/
inductive JsVal where
  | num : ℚ → JsVal
  | str : String → JsVal
  | undefined : JsVal
  | nanv : JsVal
  | pinfv : JsVal
  | ninfv : JsVal
deriving DecidableEq

/-- JS `Number(s)` restricted to integer literals (the only strings
that could reach numeric coercion here); anything else is `NaN`.
Fraction, exponent and whitespace forms are not modelled — no run in
this development coerces such a string. -/
def strToNum (s : String) : JNum :=
  if s = "" then .fin 0
  else
    let signAndDigits : ℤ × List Char :=
      match s.toList with
      | '-' :: r => (-1, r)
      | '+' :: r => (1, r)
      | r => (1, r)
    if !signAndDigits.2.isEmpty && signAndDigits.2.all Char.isDigit then
      .fin ((signAndDigits.1 *
        ((signAndDigits.2.foldl (fun acc c => 10 * acc + (c.toNat - 48)) 0 : ℕ) : ℤ) : ℤ) : ℚ)
    else .nan

/-- Numeric coercion of a `JsVal`, as JS applies it inside arithmetic. -/
def jsValToNum : JsVal → JNum
  | .num q => .fin q
  | .str s => strToNum s
  | .undefined => .nan
  | .nanv => .nan
  | .pinfv => .pinf
  | .ninfv => .ninf

/-- Store a `JNum` back as a `JsVal`. -/
def jnumToJsVal : JNum → JsVal
  | .fin q => .num q
  | .nan => .nanv
  | .pinf => .pinfv
  | .ninf => .ninfv

/-- `component.baseParams[param]` for the dynamic parameter access of
the variant generator.  Keys outside the modelled parameter set
(`data`, `config`, `columns`, `styling`, `lineHeight`, `objectFit`)
read as `undefined`; their variation rule is the identity singleton,
so the resulting variant is value-identical either way. -/
def getParamVal (p : BaseParams) : String → JsVal := fun name =>
  if name = "width" then .num p.width
  else if name = "height" then .num p.height
  else if name = "color" then .str p.color
  else if name = "backgroundColor" then .str p.backgroundColor
  else if name = "textColor" then .str p.textColor
  else if name = "fontSize" then .str p.fontSize
  else if name = "fontWeight" then .str p.fontWeight
  else if name = "borderRadius" then .str p.borderRadius
  else if name = "border" then .str p.border
  else if name = "padding" then .str p.padding
  else if name = "margin" then .str p.margin
  else if name = "title" then .str p.title
  else if name = "text" then .str p.text
  else if name = "value" then .str p.value
  else .undefined

/-- `{...baseParams, [param]: v}`.  Numeric slots only ever receive
numbers and string slots only ever receive strings from the generator
(width/height variations are rounded numbers, fontSize/color
variations are strings); a mismatched or unknown assignment leaves the
record unchanged, which is value-equivalent for every reader of the
parameter set. -/
def setParamVal (p : BaseParams) (name : String) (v : JsVal) : BaseParams :=
  if name = "width" then (match v with | .num q => { p with width := q } | _ => p)
  else if name = "height" then (match v with | .num q => { p with height := q } | _ => p)
  else if name = "color" then (match v with | .str s => { p with color := s } | _ => p)
  else if name = "backgroundColor" then (match v with | .str s => { p with backgroundColor := s } | _ => p)
  else if name = "textColor" then (match v with | .str s => { p with textColor := s } | _ => p)
  else if name = "fontSize" then (match v with | .str s => { p with fontSize := s } | _ => p)
  else if name = "fontWeight" then (match v with | .str s => { p with fontWeight := s } | _ => p)
  else if name = "borderRadius" then (match v with | .str s => { p with borderRadius := s } | _ => p)
  else if name = "border" then (match v with | .str s => { p with border := s } | _ => p)
  else if name = "padding" then (match v with | .str s => { p with padding := s } | _ => p)
  else if name = "margin" then (match v with | .str s => { p with margin := s } | _ => p)
  else if name = "title" then (match v with | .str s => { p with title := s } | _ => p)
  else if name = "text" then (match v with | .str s => { p with text := s } | _ => p)
  else if name = "value" then (match v with | .str s => { p with value := s } | _ => p)
  else p

/-- `this.optimizationConfig.paramVariations`: numeric factor sets for
width/height/fontSize, name strings for color.  (The color entry's
content is only consulted for truthiness — the numeric adaptation
mapped over it produces `NaN`s that the color branch never reads.) -/
def paramVariationsLookup : String → Option (List JsVal) := fun name =>
  if name = "width" then some ([0.8, 0.9, 0.95, 1.05, 1.1, 1.2].map .num)
  else if name = "height" then some ([0.8, 0.9, 0.95, 1.05, 1.1, 1.2].map .num)
  else if name = "color" then some (["lighter", "darker", "complementary", "analogous"].map .str)
  else if name = "fontSize" then some ([0.8, 0.9, 0.95, 1.05, 1.1, 1.2].map .num)
  else none

/-- A rounded/clamped color channel rendered with `toString(16)` and
`padStart(2, '0')`.  By construction the argument is a nonnegative
integer or `NaN` (whose JS rendering is the 3-character string `NaN`,
unchanged by the pad). -/
def chanHex (v : JNum) : String :=
  match v with
  | .fin q => padStart2 (natToHex q.num.toNat)
  | _ => "NaN"

/-- `generateColorVariations(baseColor, intensity)` on a string:
`[original]`, plus a lighter and a darker per-channel scaling when the
string starts with `#`. -/
def generateColorVariationsStr (baseColor : String) (intensity : ℚ) : List JsVal :=
  let variations := [JsVal.str baseColor]
  if headIsHash baseColor then
    let hex := baseColor.drop 1
    let r := jOfHex (hex.take 2)
    let g := jOfHex ((hex.drop 2).take 2)
    let b := jOfHex ((hex.drop 4).take 2)
    let lightFactor : ℚ := 1 + intensity * 0.3
    let darkFactor : ℚ := 1 - intensity * 0.3
    let lighter := "#" ++ chanHex (jminJ (.fin 255) (jround (jmul r (.fin lightFactor))))
      ++ chanHex (jminJ (.fin 255) (jround (jmul g (.fin lightFactor))))
      ++ chanHex (jminJ (.fin 255) (jround (jmul b (.fin lightFactor))))
    let darker := "#" ++ chanHex (jmaxJ (.fin 0) (jround (jmul r (.fin darkFactor))))
      ++ chanHex (jmaxJ (.fin 0) (jround (jmul g (.fin darkFactor))))
      ++ chanHex (jmaxJ (.fin 0) (jround (jmul b (.fin darkFactor))))
    variations ++ [JsVal.str lighter, JsVal.str darker]
  else variations

/-- `generateColorVariations(baseColor, intensity)`:
`baseColor.startsWith` throws `TypeError` when the value is not a
string. -/
def generateColorVariations (v : JsVal) (intensity : ℚ) : Except JsError (List JsVal) :=
  match v with
  | .str s => .ok (generateColorVariationsStr s intensity)
  | _ => .error .typeError

/-- `parseInt(currentValue) || 14` for the fontSize branch.  A numeric
current value is truncated toward zero (JS stringifies then parses);
`undefined`/`NaN`/infinite values parse to `NaN` and fall back to
`14`; a zero parse is falsy and also falls back. -/
def jsParseIntOrFourteen : JsVal → ℚ
  | .str s => ((jsParseIntOr14 s : ℤ) : ℚ)
  | .num q =>
      let t : ℤ := if 0 ≤ q then ⌊q⌋ else -⌊-q⌋
      if t = 0 then 14 else (t : ℚ)
  | _ => 14

/-- Integer rendering of a rounded JS number, as template
interpolation does. -/
def intString : JNum → String
  | .fin q => toString q.num
  | .nan => "NaN"
  | .pinf => "Infinity"
  | .ninf => "-Infinity"

/-- `generateParamVariations(param, currentValue, intensity)`: the
table lookup guards the switch — a parameter without an entry returns
the unchanged value as a singleton; width/height multiply by
intensity-attenuated factors and round; fontSize re-appends `px`;
color delegates to the color variations (which throw on a non-string
value). -/
def generateParamVariations (param : String) (currentValue : JsVal) (intensity : ℚ) :
    Except JsError (List JsVal) :=
  match paramVariationsLookup param with
  | none => .ok [currentValue]
  | some baseVariations =>
    let adapted : List JNum := baseVariations.map
      (fun f => jadd (.fin 1) (jmul (jsub (jsValToNum f) (.fin 1)) (.fin intensity)))
    if param = "width" || param = "height" then
      .ok (adapted.map (fun f => jnumToJsVal (jround (jmul (jsValToNum currentValue) f))))
    else if param = "fontSize" then
      let size : ℚ := jsParseIntOrFourteen currentValue
      .ok (adapted.map (fun f => JsVal.str (intString (jround (jmul (.fin size) f)) ++ "px")))
    else
      generateColorVariations currentValue intensity

/-- `generateAdaptiveVariants(component, keyParams, intensity)`: for
each key parameter in order, one new candidate per variation, sharing
every other field. -/
def generateAdaptiveVariants (component : Candidate) :
    List String → ℚ → Except JsError (List Candidate)
  | [], _ => .ok []
  | param :: rest, intensity => do
    let variations ← generateParamVariations param (getParamVal component.baseParams param) intensity
    let tail ← generateAdaptiveVariants component rest intensity
    .ok ((variations.map fun variation =>
      { component with baseParams := setParamVal component.baseParams param variation }) ++ tail)

/-! ## The evaluator over full JS values

The descriptors of the pipeline claims carry string property values,
so the evaluator above types its inputs as strings.  The JS evaluator
itself receives arbitrary JSON values; on a truthy non-string color
value it throws (`color1.replace` is not a function of a number).
The `V` layer below re-embeds `evaluateComponentQualityStrict` and its
sub-evaluators with every property and parameter slot holding a full
`JsVal`, faithful to the source on every value shape. -/

/-- JS truthiness of a stored value: `0`, `""`, `undefined` and `NaN`
are falsy, everything else truthy. -/
def truthyJV : JsVal → Bool
  | .str s => s != ""
  | .num q => decide (q ≠ 0)
  | .undefined => false
  | .nanv => false
  | .pinfv => true
  | .ninfv => true

/-- `===` on stored values: no coercion, and `NaN` equals nothing. -/
def jsStrictEq : JsVal → JsVal → Bool
  | .nanv, _ => false
  | _, .nanv => false
  | a, b => decide (a = b)

/-- Is the value a string? -/
def isStrJV : JsVal → Bool
  | .str _ => true
  | _ => false

/-- A value the color checks cannot throw on: a string, or a falsy
value (which never enters a check). -/
def colorSafe (v : JsVal) : Bool := isStrJV v || !truthyJV v

/-- `element.properties` with arbitrary JS values in every slot the
evaluator reads (`.undefined` = the key is absent). -/
structure PropsV where
  color : JsVal := .undefined
  backgroundColor : JsVal := .undefined
  textColor : JsVal := .undefined
  fontSize : JsVal := .undefined
  fontWeight : JsVal := .undefined
  title : JsVal := .undefined
  text : JsVal := .undefined
  value : JsVal := .undefined
deriving DecidableEq

/-- A candidate parameter set with arbitrary JS values, as
`baseParams` is in the source (`extractBaseParams` copies property
values as they are, so a non-string property value becomes a
non-string parameter value). -/
structure ParamsV where
  width : JsVal := .undefined
  height : JsVal := .undefined
  color : JsVal := .undefined
  backgroundColor : JsVal := .undefined
  textColor : JsVal := .undefined
  fontSize : JsVal := .undefined
  fontWeight : JsVal := .undefined
  borderRadius : JsVal := .undefined
  border : JsVal := .undefined
  padding : JsVal := .undefined
  margin : JsVal := .undefined
  title : JsVal := .undefined
  text : JsVal := .undefined
  value : JsVal := .undefined
deriving DecidableEq

/-- A descriptor with full-valued properties. -/
structure ElementV where
  id : String
  type : String
  properties : Option PropsV
  position : Option Position
deriving DecidableEq

/-- `calculateColorSimilarity(color1, color2)` on arbitrary values:
`===` short-circuits to `1.0`; otherwise `color1.replace` (then
`color2.replace`) throws `TypeError` unless both are strings, in which
case the string scoring above applies. -/
def calculateColorSimilarityV (c1 c2 : JsVal) : Except JsError JNum :=
  if jsStrictEq c1 c2 then .ok (.fin 1)
  else match c1, c2 with
    | .str s1, .str s2 => .ok (calculateColorSimilarity s1 s2)
    | _, _ => .error .typeError

/-- One guarded color check of `evaluateColorMatch`: when both sides
are truthy, score the similarity (which may throw) with the given
weight and count the check. -/
def colorChanV (p q : JsVal) (weight : ℚ) (acc : JNum × ℕ) : Except JsError (JNum × ℕ) :=
  if truthyJV p && truthyJV q then
    (calculateColorSimilarityV p q).map (fun m => (jadd acc.1 (jmul m (.fin weight)), acc.2 + 1))
  else .ok acc

/-- `evaluateColorMatch(params, properties)` on arbitrary values:
primary 0.5, background 0.3, text 0.2, neutral `0.5` when no check
applies; a truthy non-string on a checked channel throws. -/
def evaluateColorMatchV (params : ParamsV) (props : PropsV) : Except JsError JNum := do
  let s1 ← colorChanV props.color params.color 0.5 (.fin 0, 0)
  let s2 ← colorChanV props.backgroundColor params.backgroundColor 0.3 s1
  let s3 ← colorChanV props.textColor params.textColor 0.2 s2
  .ok (if 0 < s3.2 then s3.1 else .fin 0.5)

/-- The throw-free font-size and font-weight checks of
`evaluateTypographyMatch` on arbitrary values: `parseInt` coerces any
value (numbers truncate, unparsable shapes give `NaN`, `|| 14` catches
falsy and `NaN` parses), and the weight check is `===`. -/
def typoPureSteps (params : ParamsV) (props : PropsV) : JNum × ℕ :=
  let base : JNum × ℕ := (.fin 0, 0)
  let step1 : JNum × ℕ :=
    if truthyJV props.fontSize && truthyJV params.fontSize then
      let fontSize1 : ℚ := jsParseIntOrFourteen props.fontSize
      let fontSize2 : ℚ := jsParseIntOrFourteen params.fontSize
      let fontSizeError : ℚ := |fontSize1 - fontSize2| / fontSize1
      let fontSizeScore : ℚ := max 0 (1 - fontSizeError * 3)
      (jadd base.1 (.fin (fontSizeScore * 0.4)), base.2 + 1)
    else base
  if truthyJV props.fontWeight && truthyJV params.fontWeight then
    (jadd step1.1 (.fin ((if jsStrictEq props.fontWeight params.fontWeight then (1:ℚ) else 0.5) * 0.3)),
      step1.2 + 1)
  else step1

/-- `evaluateTypographyMatch(params, properties)` on arbitrary values:
font size 0.4, font weight 0.3, then the text-color similarity 0.3 —
the last can throw exactly like the color match. -/
def evaluateTypographyMatchV (params : ParamsV) (props : PropsV) : Except JsError JNum := do
  let s3 ← colorChanV props.textColor params.textColor 0.3 (typoPureSteps params props)
  .ok (if 0 < s3.2 then s3.1 else .fin 0.5)

/-- One guarded content check: `=== ? 1.0 : 0.7`, never throws. -/
def contentChanJ (p q : JsVal) (weight : ℚ) (acc : ℚ × ℕ) : ℚ × ℕ :=
  if truthyJV p && truthyJV q then
    (acc.1 + (if jsStrictEq p q then (1:ℚ) else 0.7) * weight, acc.2 + 1)
  else acc

/-- `evaluateContentMatch(params, properties)` on arbitrary values:
title 0.4, text 0.3, value 0.3, neutral `0.5` when none applies. -/
def evaluateContentMatchV (params : ParamsV) (props : PropsV) : JNum :=
  let s3 := contentChanJ props.value params.value 0.3
    (contentChanJ props.text params.text 0.3
      (contentChanJ props.title params.title 0.4 (0, 0)))
  if 0 < s3.2 then .fin s3.1 else .fin 0.5

/-- `evaluateSizeMatch(params, position)` on arbitrary values: the
subtraction coerces the parameter to a number (`ToNumber`), so no
shape throws here. -/
def evaluateSizeMatchV (params : ParamsV) (position : Option Position) : JNum :=
  match position with
  | none => .fin 0
  | some pos =>
    let widthError := jdiv (jabs (jsub (jsValToNum params.width) (jOfOpt pos.width))) (jOfOpt pos.width)
    let heightError := jdiv (jabs (jsub (jsValToNum params.height) (jOfOpt pos.height))) (jOfOpt pos.height)
    let widthScore := jmaxJ (.fin 0) (jsub (.fin 1) (jmul widthError (.fin 2)))
    let heightScore := jmaxJ (.fin 0) (jsub (.fin 1) (jmul heightError (.fin 2)))
    jdiv (jadd widthScore heightScore) (.fin 2)

/-- `evaluateComponentQualityStrict(component, element)` on arbitrary
values: the weighted sum clamped to `[0, 1]`; a missing `properties`
object throws at the first property read inside `evaluateColorMatch`,
and a truthy non-string color value throws inside the color or
typography check. -/
def evaluateComponentQualityStrictV (params : ParamsV) (element : ElementV) :
    Except JsError JNum :=
  match element.properties with
  | none => .error .typeError
  | some props => do
    let colorScore ← evaluateColorMatchV params props
    let typographyScore ← evaluateTypographyMatchV params props
    .ok (jclamp01 (jadd (jadd (jadd (jmul (evaluateSizeMatchV params element.position) (.fin 0.4))
      (jmul colorScore (.fin 0.25)))
      (jmul typographyScore (.fin 0.2)))
      (jmul (evaluateContentMatchV params props) (.fin 0.15))))

/-! ## The adaptive optimization loop

The JS loop returns only the best candidate.  To state the spec's
state-machine claims, the embedding additionally records which of the
three exit paths fired (`StopReason`), the per-completed-iteration
improvement flags, every evaluated variant quality in order, and the
best-so-far quality at the end of each completed iteration.  The
`comp` projection is the JS return value. -/

/-- The three terminal states of the loop: the `return` inside the
variant scan (quality ≥ 0.95), the stagnation `break`, and the `for`
condition running out. -/
inductive StopReason where
  | threshold : StopReason
  | stagnant : StopReason
  | exhausted : StopReason
deriving DecidableEq

/-- Result of one optimization run, with instrumentation. -/
structure OptOut where
  comp : Candidate
  reason : StopReason
  flags : List Bool
  evals : List JNum
  bqs : List ℚ
deriving DecidableEq

/-- Result of scanning one iteration's variant list: either the
threshold `return` fired with a candidate, or the scan completed with
the updated best quality/candidate/improved flag.  Both carry the
qualities evaluated during the scan. -/
inductive InnerOut where
  | thresh : Candidate → List JNum → InnerOut
  | cont : ℚ → Candidate → Bool → List JNum → InnerOut
deriving DecidableEq

/-- Prepend an evaluated quality to an `InnerOut`'s trace. -/
def consEval (q : JNum) : InnerOut → InnerOut
  | .thresh c ev => .thresh c (q :: ev)
  | .cont bq b i ev => .cont bq b i (q :: ev)

/-- The inner `for (const variant of variants)` scan: evaluate,
update the best on strict improvement, and `return` immediately when
the quality reaches `0.95`.  A `NaN` quality fails both the `>` and
the `>=` test (and `±Infinity` never escapes the clamp, so the
non-finite case is uniformly a no-op). -/
def runVariants (element : Element) (iterIdx : ℕ) :
    List Candidate → ℚ → Candidate → Bool → Except JsError InnerOut
  | [], bestQuality, bestComponent, improved =>
      .ok (.cont bestQuality bestComponent improved [])
  | variant :: rest, bestQuality, bestComponent, improved => do
    let quality ← evaluateComponentQualityStrict variant.baseParams element
    match quality with
    | .fin x =>
      let upd : Candidate := { variant with quality := x, iterations := iterIdx + 1 }
      let bestQuality' := if bestQuality < x then x else bestQuality
      let bestComponent' := if bestQuality < x then upd else bestComponent
      let improved' := improved || decide (bestQuality < x)
      if 0.95 ≤ x then
        .ok (.thresh upd [.fin x])
      else do
        let out ← runVariants element iterIdx rest bestQuality' bestComponent' improved'
        .ok (consEval (.fin x) out)
    | q => do
        let out ← runVariants element iterIdx rest bestQuality bestComponent improved
        .ok (consEval q out)

/-- The outer `for (let iteration = 0; iteration < maxIterations;
iteration++)` loop, with `fuel = maxIterations - iterIdx` the number
of iterations left.  Stagnation (`3` consecutive non-improving
iterations) breaks with `.stagnant`; running out of fuel exits with
`.exhausted`; the inner threshold `return` surfaces as `.threshold`.
At the end of each iteration `currentComponent = bestComponent`, as in
the source. -/
def optimLoop (element : Element) (keyParams : List String) (maxIterations : ℕ) :
    ℕ → ℕ → Candidate → Candidate → ℚ → ℕ → Except JsError OptOut
  | 0, _, _, bestComponent, _, _ => .ok ⟨bestComponent, .exhausted, [], [], []⟩
  | fuel + 1, iterIdx, currentComponent, bestComponent, bestQuality, stagnationCount => do
    let variants ← generateAdaptiveVariants currentComponent keyParams
      (calculateVariationIntensity iterIdx maxIterations stagnationCount)
    let inner ← runVariants element iterIdx variants bestQuality bestComponent false
    match inner with
    | .thresh c ev => .ok ⟨c, .threshold, [], ev, []⟩
    | .cont bestQuality' bestComponent' improved ev =>
      if improved then do
        let out ← optimLoop element keyParams maxIterations fuel (iterIdx + 1)
          bestComponent' bestComponent' bestQuality' 0
        .ok ⟨out.comp, out.reason, true :: out.flags, ev ++ out.evals, bestQuality' :: out.bqs⟩
      else if 3 ≤ stagnationCount + 1 then
        .ok ⟨bestComponent', .stagnant, [false], ev, [bestQuality']⟩
      else do
        let out ← optimLoop element keyParams maxIterations fuel (iterIdx + 1)
          bestComponent' bestComponent' bestQuality' (stagnationCount + 1)
        .ok ⟨out.comp, out.reason, false :: out.flags, ev ++ out.evals, bestQuality' :: out.bqs⟩

/-- Stage 2, `performAdaptiveOptimization(baseComponent, element)`:
select key parameters and the iteration budget, then run the loop
from the base candidate. -/
def performAdaptiveOptimization (L : ℚ → JNum) (baseComponent : Candidate) (element : Element) :
    Except JsError OptOut :=
  let keyParams := selectKeyParams L element
  let maxIterations := calculateMaxIterations L element
  optimLoop element keyParams maxIterations maxIterations 0
    baseComponent baseComponent baseComponent.quality 0

/-! ## Batch pipeline (the pure core of `processStructuredData`)

File-system persistence, code formatting and the literal template
strings are outside the claims' scope; an `Artifact` keeps the fields
the claims inspect (`quality`, `iterations` and the component-type
tag). -/

/-- One generated artifact. -/
structure Artifact where
  id : String
  type : String
  componentType : String
  quality : ℚ
  iterations : ℕ
deriving DecidableEq

/-- `generateFinalComponent`: the final artifact copies the optimized
candidate's quality and iteration count. -/
def generateFinalComponent (c : Candidate) : Artifact :=
  ⟨c.id, c.type, c.componentType, c.quality, c.iterations⟩

/-- `generateFallbackComponent(element)`: fixed quality `0.1`,
`iterations: 0`. -/
def generateFallbackComponent (e : Element) : Artifact :=
  ⟨e.id, e.type, "FallbackComponent", 0.1, 0⟩

/-- The per-element body of `processStructuredData`: basic mapping,
adaptive optimization (always enabled in the constructor config),
final component; any exception is caught and replaced by the fallback
artifact. -/
def processElement (L : ℚ → JNum) (e : Element) : Artifact :=
  match performAdaptiveOptimization L (performBasicMapping e) e with
  | .ok out => generateFinalComponent out.comp
  | .error _ => generateFallbackComponent e

/-- The per-element loop of `processStructuredData`: strictly
sequential, one artifact per descriptor. -/
def processElements (L : ℚ → JNum) (elements : List Element) : List Artifact :=
  elements.map (processElement L)

/-- `generateMainComponent`: the aggregator artifact, fixed quality
`1.0`, `iterations: 0`, never optimized. -/
def generateMainComponent : Artifact :=
  ⟨"main", "main", "MainComponent", 1, 0⟩

/-- The pure artifact list of one job: per-element artifacts in
order, then the aggregator. -/
def processStructuredData (L : ℚ → JNum) (elements : List Element) : List Artifact :=
  processElements L elements ++ [generateMainComponent]

/-- `Math.log`, modelled exactly on the arguments whose values the
concrete runs in this file depend on: negative arguments give `NaN`,
`0` gives `-Infinity`, `1` gives `0`.  Any other argument receives an
arbitrary finite placeholder — every universally-quantified theorem
below is parametric in the log function, so conclusions never depend
on the placeholder. -/
def jsLogModel (x : ℚ) : JNum :=
  if x < 0 then .nan
  else if x = 0 then .ninf
  else if x = 1 then .fin 0
  else .fin 2

/-! ## Trace observers -/

/-- Every finite value of `q` is at most `c` (vacuous for `NaN`). -/
def finLe (q : JNum) (c : ℚ) : Prop := ∀ x, q = .fin x → x ≤ c

/-- Scan an improvement-flag list with the stagnation counter started
at `s`: does the counter ever reach `3`? -/
def reachesThree : ℕ → List Bool → Bool
  | _, [] => false
  | s, f :: rest =>
    if f then reachesThree 0 rest
    else if 3 ≤ s + 1 then true else reachesThree (s + 1) rest

/-- The 1-based iteration of the last improvement: scan the flag list
starting at iteration index `idx` with current value `cur`. -/
def lastImpFrom : ℕ → ℕ → List Bool → ℕ
  | _, cur, [] => cur
  | idx, cur, f :: rest => lastImpFrom (idx + 1) (if f then idx + 1 else cur) rest

/-- Three consecutive non-improving iterations somewhere in the flag
list. -/
def hasThreeConsecutiveFalse : List Bool → Bool
  | false :: false :: false :: _ => true
  | _ :: rest => hasThreeConsecutiveFalse rest
  | [] => false

/-- The evaluated-quality trace of one variant scan. -/
def innerEvals : InnerOut → List JNum
  | .thresh _ ev => ev
  | .cont _ _ _ ev => ev

/-! ## Concrete descriptors used by the closed statements -/

/-- A minimal descriptor: empty properties object, no position.  Every
candidate scores exactly `0.3` against it (size `0`, all other checks
neutral `0.5`). -/
def elemNeutral : Element :=
  { id := "w", type := "widget", properties := some emptyProps, position := none }

/-- `{x: absent, y: absent, width: -1, height: 40}`. -/
def posNegWidth : Position := { width := some (-1), height := some 40 }

/-- The negative-width descriptor of the 3-descriptor job: its area is
negative, so `Math.log` makes the complexity `NaN`, but nothing
throws. -/
def elemNegWidth : Element :=
  { id := "b", type := "widget", properties := some emptyProps, position := some posNegWidth }

/-- `{width: 300, height: 200}`. -/
def pos300x200 : Position := { width := some 300, height := some 200 }

/-- The claim-C1 descriptor: `{position: {width: 300, height: 200}}`
and no `properties` object at all. -/
def elemC1 : Element :=
  { id := "e1", type := "widget", properties := none, position := some pos300x200 }

/-- Fully-populated matching properties for the amended C1 scenario:
every value equals the corresponding extracted parameter default or
copy, so a candidate built from this descriptor matches it exactly. -/
def propsMatching : ElementProps :=
  { title := some "T", text := some "X", value := some "V", color := some "#1976d2",
    backgroundColor := some "#ffffff", textColor := some "#000000",
    fontSize := some "14px", fontWeight := some "400" }

/-- The amended C1 descriptor: position `{300, 200}` plus a properties
object whose color/typography/content all match the candidate. -/
def elemC1Amended : Element :=
  { id := "e1", type := "widget", properties := some propsMatching, position := some pos300x200 }

/-- The 3-descriptor job of claim C3, with `elemNegWidth` in the
middle (ids made distinct). -/
def elemNeutralC : Element :=
  { id := "c", type := "widget", properties := some emptyProps, position := none }

/-- The 3-descriptor job of claim C3. -/
def jobThree : List Element := [elemNeutral, elemNegWidth, elemNeutralC]

/-- A descriptor whose type has no entry in `optimizationParams`
(`header` is mapped to a component type but has no key-parameter
list). -/
def elemHeader : Element :=
  { id := "h", type := "header", properties := some emptyProps, position := none }

/-- A fully string-valued parameter set for the full-value evaluator,
mirroring the `extractBaseParams` defaults. -/
def paramsVStd : ParamsV :=
  { width := .num 300, height := .num 200, color := .str "#1976d2",
    backgroundColor := .str "#ffffff", textColor := .str "#000000",
    fontSize := .str "14px", fontWeight := .str "400", borderRadius := .str "4px",
    border := .str "none", padding := .str "16px", margin := .str "8px",
    title := .str "", text := .str "", value := .str "" }

/-- A full-value properties object whose color slots are strings or
absent. -/
def propsVStr : PropsV :=
  { color := .str "#1976d2", textColor := .str "#000000",
    fontSize := .str "14px", fontWeight := .str "400", title := .str "T" }

/-- A full-value descriptor with string-or-absent color slots. -/
def elemVStr : ElementV := ⟨"v1", "widget", some propsVStr, some pos300x200⟩

/-- A full-value properties object whose `color` is the number `42`:
truthy, not a string, and not strictly equal to any color string. -/
def propsVNum : PropsV := { color := .num 42 }

/-- The descriptor carrying `propsVNum`. -/
def elemVNum : ElementV := ⟨"v2", "widget", some propsVNum, none⟩

/-- A full-value descriptor with no properties object. -/
def elemVNone : ElementV := ⟨"v0", "widget", none, none⟩

/-- The computed optimization run on `elemNeutral`: no variant beats
the base `0.3`, three stagnant iterations of 12 variants each, result
is the untouched base candidate. -/
def outNeutral : OptOut :=
  ⟨performBasicMapping elemNeutral, .stagnant, [false, false, false],
    List.replicate 36 (.fin 0.3), [0.3, 0.3, 0.3]⟩

/-- The computed optimization run on `elemNegWidth`: every width
variant rounds back to `-1`, so the first iteration improves to
quality `0.7` (size score `1` against the negative target) and the
next three stagnate. -/
def outNegWidth : OptOut :=
  ⟨{ id := "b", type := "widget", componentType := "GenericComponent",
     baseParams := extractBaseParams elemNegWidth, quality := 0.7, iterations := 1 },
    .stagnant, [true, false, false, false], List.replicate 24 (.fin 0.7),
    [0.7, 0.7, 0.7, 0.7]⟩

/-- The computed optimization run on `elemC1Amended`: the very first
variant (width factor `0.8` attenuated by intensity `0.05`, giving
width `297`) scores `0.996 ≥ 0.95` and triggers the threshold
return. -/
def outC1Amended : OptOut :=
  ⟨{ id := "e1", type := "widget", componentType := "GenericComponent",
     baseParams := { extractBaseParams elemC1Amended with width := 297 },
     quality := 0.996, iterations := 1 },
    .threshold, [], [.fin 0.996], []⟩

/-! ## Basic lemmas -/

theorem exceptBindOk {α β ε : Type} (a : α) (fc : α → Except ε β) :
    (Except.ok a >>= fc) = fc a := rfl

theorem exceptBindErr {α β ε : Type} (e : ε) (fc : α → Except ε β) :
    ((Except.error e : Except ε α) >>= fc) = Except.error e := rfl

theorem jclamp01_cases (v : JNum) :
    jclamp01 v = .nan ∨ ∃ x, jclamp01 v = .fin x ∧ 0 ≤ x ∧ x ≤ 1 := by
  cases v with
  | fin a =>
    right
    refine ⟨max 0 (min 1 a), ?_, le_max_left _ _, ?_⟩
    · simp [jclamp01, jminJ, jmaxJ]
    · exact max_le (by norm_num) (min_le_left _ _)
  | nan => left; rfl
  | pinf => right; exact ⟨1, rfl, by norm_num, le_rfl⟩
  | ninf => right; exact ⟨0, rfl, le_rfl, by norm_num⟩

theorem evaluateComponentQualityStrict_ok_cases (params : BaseParams) (element : Element)
    (v : JNum) (h : evaluateComponentQualityStrict params element = .ok v) :
    v = .nan ∨ ∃ x, v = .fin x ∧ 0 ≤ x ∧ x ≤ 1 := by
  unfold evaluateComponentQualityStrict at h
  cases hp : element.properties with
  | none => rw [hp] at h; exact absurd h (by simp)
  | some props =>
    rw [hp] at h
    simp only [Except.ok.injEq] at h
    rw [← h]
    exact jclamp01_cases _

theorem evaluateComponentQualityStrict_err (params : BaseParams) (element : Element)
    (h : element.properties = none) :
    evaluateComponentQualityStrict params element = .error .typeError := by
  unfold evaluateComponentQualityStrict
  rw [h]

theorem evaluateComponentQualityStrict_isOk (params : BaseParams) (element : Element)
    (props : ElementProps) (h : element.properties = some props) :
    (evaluateComponentQualityStrict params element).isOk = true := by
  unfold evaluateComponentQualityStrict
  rw [h]
  rfl

/-! ## Loop invariants -/

/-- Everything one variant scan guarantees: the threshold exit carries
a candidate at or above `0.95` stamped with the current iteration; the
continue exit never decreases the best quality, keeps it below the
threshold, records every finite evaluated quality at or below the new
best, and only replaces the best candidate by one stamped with the
current iteration. -/
theorem runVariants_spec (element : Element) (iterIdx : ℕ) :
    ∀ (vs : List Candidate) (bq : ℚ) (b : Candidate) (imp : Bool) (out : InnerOut),
    runVariants element iterIdx vs bq b imp = .ok out →
    b.quality = bq → bq < 0.95 →
    ((∀ c ev, out = .thresh c ev →
        0.95 ≤ c.quality ∧ c.quality ≤ 1 ∧ bq ≤ c.quality ∧ c.iterations = iterIdx + 1 ∧
        (∀ q ∈ ev, finLe q c.quality) ∧ JNum.fin c.quality ∈ ev) ∧
     (∀ bq' b' imp' ev, out = .cont bq' b' imp' ev →
        bq ≤ bq' ∧ b'.quality = bq' ∧ bq' < 0.95 ∧
        (bq ≤ 1 → bq' ≤ 1) ∧
        (b' = b ∨ b'.iterations = iterIdx + 1) ∧
        (∀ q ∈ ev, finLe q bq') ∧
        (imp = true → imp' = true) ∧
        (imp = false → imp' = false → bq' = bq ∧ b' = b) ∧
        (imp = false → imp' = true → bq < bq') ∧
        (bq' = bq ∨ JNum.fin bq' ∈ ev))) := by
  intro vs
  induction vs with
  | nil =>
    intro bq b imp out h hq h95
    simp only [runVariants, Except.ok.injEq] at h
    constructor
    · intro c ev hth; rw [← h] at hth; exact absurd hth (by simp)
    · intro bq' b' imp' ev hco
      rw [← h] at hco
      obtain ⟨h1, h2, h3, h4⟩ : bq' = bq ∧ b' = b ∧ imp' = imp ∧ ev = [] := by
        have := hco.symm; simp only [InnerOut.cont.injEq] at this; tauto
      subst h1; subst h2; subst h3; subst h4
      refine ⟨le_rfl, hq, h95, fun h => h, Or.inl rfl, by simp [finLe], fun h => h,
        fun _ _ => ⟨rfl, rfl⟩, ?_, Or.inl rfl⟩
      intro h1 h2; rw [h1] at h2; exact absurd h2 (by simp)
  | cons v rest ih =>
    intro bq b imp out h hq h95
    rw [runVariants] at h
    cases he : evaluateComponentQualityStrict v.baseParams element with
    | error err => rw [he, exceptBindErr] at h; exact absurd h (by simp)
    | ok quality =>
      rw [he, exceptBindOk] at h
      split at h
      case h_1 x =>
        have hx01 : 0 ≤ x ∧ x ≤ 1 := by
          rcases evaluateComponentQualityStrict_ok_cases _ _ _ he with hnan | ⟨y, hy, h0, h1⟩
          · exact absurd hnan (by simp)
          · simp only [JNum.fin.injEq] at hy; rw [hy]; exact ⟨h0, h1⟩
        by_cases hth : (0.95 : ℚ) ≤ x
        · rw [if_pos hth] at h
          simp only [Except.ok.injEq] at h
          constructor
          · intro c ev hthm
            rw [← h] at hthm
            obtain ⟨hc, hev⟩ : c = { v with quality := x, iterations := iterIdx + 1 } ∧
                ev = [JNum.fin x] := by
              have hmm := hthm
              simp only [InnerOut.thresh.injEq] at hmm
              exact ⟨hmm.1.symm, hmm.2.symm⟩
            subst hc; subst hev
            refine ⟨hth, hx01.2, le_of_lt (lt_of_lt_of_le h95 hth), rfl, ?_, by simp⟩
            intro q hq' y hy
            simp only [List.mem_singleton] at hq'
            rw [hq'] at hy; simp only [JNum.fin.injEq] at hy; subst hy; exact le_rfl
          · intro bq' b' imp' ev hco; rw [← h] at hco; exact absurd hco (by simp)
        · rw [if_neg hth] at h
          cases hrec : runVariants element iterIdx rest (if bq < x then x else bq)
              (if bq < x then { v with quality := x, iterations := iterIdx + 1 } else b)
              (imp || decide (bq < x)) with
          | error err => rw [hrec, exceptBindErr] at h; exact absurd h (by simp)
          | ok out' =>
            rw [hrec, exceptBindOk] at h
            simp only [Except.ok.injEq] at h
            have hq' : (if bq < x then { v with quality := x, iterations := iterIdx + 1 }
                else b).quality = (if bq < x then x else bq) := by
              by_cases himp : bq < x
              · rw [if_pos himp, if_pos himp]
              · rw [if_neg himp, if_neg himp]; exact hq
            have h95' : (if bq < x then x else bq) < 0.95 := by
              by_cases himp : bq < x
              · rw [if_pos himp]; exact lt_of_not_le hth
              · rw [if_neg himp]; exact h95
            have IH := ih (if bq < x then x else bq)
              (if bq < x then { v with quality := x, iterations := iterIdx + 1 } else b)
              (imp || decide (bq < x)) out' hrec hq' h95'
            have hble : bq ≤ (if bq < x then x else bq) := by
              by_cases himp : bq < x
              · rw [if_pos himp]; exact le_of_lt himp
              · rw [if_neg himp]
            have hxle : x ≤ (if bq < x then x else bq) := by
              by_cases himp : bq < x
              · rw [if_pos himp]
              · rw [if_neg himp]; exact le_of_not_lt himp
            constructor
            · intro c ev hthm
              rw [← h] at hthm
              cases out' with
              | cont a2 b2 c2 d2 => exact absurd hthm (by simp [consEval])
              | thresh c2 ev2 =>
                obtain ⟨hc, hev⟩ : c = c2 ∧ ev = JNum.fin x :: ev2 := by
                  have hmm := hthm
                  simp only [consEval, InnerOut.thresh.injEq] at hmm
                  exact ⟨hmm.1.symm, hmm.2.symm⟩
                subst hc; subst hev
                obtain ⟨i1, i2, i3, i4, i5, i6⟩ := IH.1 c ev2 rfl
                refine ⟨i1, i2, le_trans hble i3, i4, ?_, List.mem_cons_of_mem _ i6⟩
                intro q hmem y hy
                rcases List.mem_cons.mp hmem with hq0 | hq0
                · rw [hq0] at hy; simp only [JNum.fin.injEq] at hy
                  subst hy; exact le_trans hxle i3
                · exact i5 q hq0 y hy
            · intro bq' b' imp' ev hco
              rw [← h] at hco
              cases out' with
              | thresh c2 ev2 => exact absurd hco (by simp [consEval])
              | cont bq2 b2 imp2 ev2 =>
                obtain ⟨h1, h2, h3, h4⟩ : bq' = bq2 ∧ b' = b2 ∧ imp' = imp2 ∧
                    ev = JNum.fin x :: ev2 := by
                  have hmm := hco
                  simp only [consEval, InnerOut.cont.injEq] at hmm
                  exact ⟨hmm.1.symm, hmm.2.1.symm, hmm.2.2.1.symm, hmm.2.2.2.symm⟩
                subst h1; subst h2; subst h3; subst h4
                obtain ⟨j1, j2, j3, j4, j5, j6, j7, j8, j9, j10⟩ := IH.2 bq' b' imp' ev2 rfl
                refine ⟨le_trans hble j1, j2, j3, ?_, ?_, ?_, ?_, ?_, ?_, ?_⟩
                · intro hb1
                  refine j4 ?_
                  by_cases himp : bq < x
                  · rw [if_pos himp]; exact hx01.2
                  · rw [if_neg himp]; exact hb1
                · rcases j5 with j5 | j5
                  · rw [j5]
                    by_cases himp : bq < x
                    · right; rw [if_pos himp]
                    · left; rw [if_neg himp]
                  · right; exact j5
                · intro q hmem y hy
                  rcases List.mem_cons.mp hmem with hq0 | hq0
                  · rw [hq0] at hy; simp only [JNum.fin.injEq] at hy
                    subst hy; exact le_trans hxle j1
                  · exact j6 q hq0 y hy
                · intro himp
                  exact j7 (by rw [himp]; rfl)
                · intro himp himp2
                  by_cases hlt : bq < x
                  · have hit : imp' = true := j7 (by rw [himp, decide_eq_true hlt]; rfl)
                    rw [himp2] at hit; exact absurd hit (by simp)
                  · have hif1 : (if bq < x then x else bq) = bq := if_neg hlt
                    have hif2 :
                        (if bq < x then { v with quality := x, iterations := iterIdx + 1 } else b)
                          = b := if_neg hlt
                    rw [hif1, hif2] at j8
                    exact j8 (by rw [himp, decide_eq_false hlt]; rfl) himp2
                · intro himp himp2
                  by_cases hlt : bq < x
                  · exact lt_of_lt_of_le hlt (by rw [if_pos hlt] at j1; exact j1)
                  · have hif1 : (if bq < x then x else bq) = bq := if_neg hlt
                    rw [hif1] at j9
                    exact j9 (by rw [himp, decide_eq_false hlt]; rfl) himp2
                · rcases j10 with j10 | j10
                  · by_cases hlt : bq < x
                    · right
                      rw [j10, if_pos hlt]
                      exact List.mem_cons_self _ _
                    · left
                      rw [j10, if_neg hlt]
                  · right; exact List.mem_cons_of_mem _ j10
      case h_2 qdup hfa =>
        cases hrec : runVariants element iterIdx rest bq b imp with
        | error err => rw [hrec, exceptBindErr] at h; exact absurd h (by simp)
        | ok out' =>
          rw [hrec, exceptBindOk] at h
          simp only [Except.ok.injEq] at h
          have IH := ih bq b imp out' hrec hq h95
          constructor
          · intro c ev hthm
            rw [← h] at hthm
            cases out' with
            | cont a2 b2 c2 d2 => exact absurd hthm (by simp [consEval])
            | thresh c2 ev2 =>
              obtain ⟨hc, hev⟩ : c = c2 ∧ ev = quality :: ev2 := by
                have hmm := hthm
                simp only [consEval, InnerOut.thresh.injEq] at hmm
                exact ⟨hmm.1.symm, hmm.2.symm⟩
              subst hc; subst hev
              obtain ⟨i1, i2, i3, i4, i5, i6⟩ := IH.1 c ev2 rfl
              refine ⟨i1, i2, i3, i4, ?_, List.mem_cons_of_mem _ i6⟩
              intro q0 hmem y hy
              rcases List.mem_cons.mp hmem with hq0 | hq0
              · rw [hq0] at hy; exact absurd hy (by intro hcon; exact hfa y hcon)
              · exact i5 q0 hq0 y hy
          · intro bq' b' imp' ev hco
            rw [← h] at hco
            cases out' with
            | thresh c2 ev2 => exact absurd hco (by simp [consEval])
            | cont bq2 b2 imp2 ev2 =>
              obtain ⟨h1, h2, h3, h4⟩ : bq' = bq2 ∧ b' = b2 ∧ imp' = imp2 ∧
                  ev = quality :: ev2 := by
                have hmm := hco
                simp only [consEval, InnerOut.cont.injEq] at hmm
                exact ⟨hmm.1.symm, hmm.2.1.symm, hmm.2.2.1.symm, hmm.2.2.2.symm⟩
              subst h1; subst h2; subst h3; subst h4
              obtain ⟨j1, j2, j3, j4, j5, j6, j7, j8, j9, j10⟩ := IH.2 bq' b' imp' ev2 rfl
              refine ⟨j1, j2, j3, j4, j5, ?_, j7, j8, j9, ?_⟩
              · intro q0 hmem y hy
                rcases List.mem_cons.mp hmem with hq0 | hq0
                · rw [hq0] at hy; exact absurd hy (by intro hcon; exact hfa y hcon)
                · exact j6 q0 hq0 y hy
              · rcases j10 with j10 | j10
                · exact Or.inl j10
                · exact Or.inr (List.mem_cons_of_mem _ j10)


/-- The outer-loop invariant: the returned candidate dominates the
best-so-far quality, stays in `[0, 1]`, is stamped within the
iteration budget; the per-iteration best qualities form a
non-decreasing chain below the result; every finite evaluated quality
is at most the result; the `Stagnant` exit fires exactly when the
stagnation counter reaches `3`; and on the non-threshold exits the
recorded iteration count is the 1-based iteration of the last
improvement. -/
theorem optimLoop_spec (element : Element) (keyParams : List String) (maxIterations : ℕ) :
    ∀ (fuel iterIdx : ℕ) (cur b : Candidate) (bq : ℚ) (stag : ℕ) (out : OptOut),
    optimLoop element keyParams maxIterations fuel iterIdx cur b bq stag = .ok out →
    b.quality = bq → bq < 0.95 → 0 ≤ bq → bq ≤ 1 → b.iterations ≤ iterIdx →
    iterIdx + fuel = maxIterations →
    (bq ≤ out.comp.quality ∧
     0 ≤ out.comp.quality ∧ out.comp.quality ≤ 1 ∧
     out.comp.iterations ≤ maxIterations ∧
     List.Chain' (· ≤ ·) (bq :: out.bqs) ∧
     (∀ q ∈ out.bqs, q ≤ out.comp.quality) ∧
     (∀ q ∈ out.evals, finLe q out.comp.quality) ∧
     (out.reason = .stagnant ↔ reachesThree stag out.flags = true) ∧
     (out.reason = .stagnant ∨ out.reason = .exhausted →
        out.comp.iterations = lastImpFrom iterIdx b.iterations out.flags) ∧
     out.flags.length ≤ fuel ∧
     (out.comp.quality = bq ∨ JNum.fin out.comp.quality ∈ out.evals)) := by
  intro fuel
  induction fuel with
  | zero =>
    intro iterIdx cur b bq stag out h hq h95 h0 h1 hit hsum
    simp only [optimLoop, Except.ok.injEq] at h
    subst h
    refine ⟨le_of_eq hq.symm, hq ▸ h0, hq ▸ h1, ?_, ?_, by simp, by simp [finLe], ?_, ?_, ?_,
      Or.inl hq⟩
    · have : iterIdx = maxIterations := by omega
      exact this ▸ hit
    · simp
    · constructor
      · intro hco; exact absurd hco (by simp)
      · intro hco; exact absurd hco (by simp [reachesThree])
    · intro _; rfl
    · simp
  | succ fuel ihf =>
    intro iterIdx cur b bq stag out h hq h95 h0 h1 hit hsum
    rw [optimLoop] at h
    cases hv : generateAdaptiveVariants cur keyParams
        (calculateVariationIntensity iterIdx maxIterations stag) with
    | error err => rw [hv, exceptBindErr] at h; exact absurd h (by simp)
    | ok variants =>
      rw [hv, exceptBindOk] at h
      cases hi : runVariants element iterIdx variants bq b false with
      | error err => rw [hi, exceptBindErr] at h; exact absurd h (by simp)
      | ok inner =>
        rw [hi, exceptBindOk] at h
        have S := runVariants_spec element iterIdx variants bq b false inner hi hq h95
        split at h
        case h_1 c ev =>
          simp only [Except.ok.injEq] at h
          subst h
          obtain ⟨s1, s2, s3, s4, s5, s6⟩ := S.1 c ev rfl
          refine ⟨s3, le_trans h0 s3, s2, by rw [s4]; omega, by simp, by simp, s5, ?_, ?_,
            by simp, Or.inr s6⟩
          · constructor
            · intro hco; exact absurd hco (by simp)
            · intro hco; exact absurd hco (by simp [reachesThree])
          · intro hco
            rcases hco with hco | hco <;> exact absurd hco (by simp)
        case h_2 bq' b' imp' ev =>
          obtain ⟨j1, j2, j3, j4, j5, j6, j7, j8, j9, j10⟩ := S.2 bq' b' imp' ev rfl
          have h0' : 0 ≤ bq' := le_trans h0 j1
          have h1' : bq' ≤ 1 := j4 h1
          cases himp : imp' with
          | true =>
            rw [himp] at h
            rw [if_pos rfl] at h
            have hbit : b'.iterations = iterIdx + 1 := by
              rcases j5 with j5 | j5
              · exfalso
                have hlt := j9 rfl himp
                rw [j5] at j2
                rw [hq] at j2
                exact absurd j2 (ne_of_lt hlt)
              · exact j5
            cases hrec : optimLoop element keyParams maxIterations fuel (iterIdx + 1)
                b' b' bq' 0 with
            | error err => rw [hrec, exceptBindErr] at h; exact absurd h (by simp)
            | ok out' =>
              rw [hrec, exceptBindOk] at h
              simp only [Except.ok.injEq] at h
              subst h
              have IH := ihf (iterIdx + 1) b' b' bq' 0 out' hrec j2 j3 h0' h1'
                (le_of_eq hbit) (by omega)
              obtain ⟨k1, k2, k3, k4, k5, k6, k7, k8, k9, k10, k11⟩ := IH
              dsimp only
              refine ⟨le_trans j1 k1, k2, k3, k4, ?_, ?_, ?_, ?_, ?_, by simpa using k10, ?_⟩
              · exact List.chain'_cons.mpr ⟨j1, k5⟩
              · intro q hmem
                rcases List.mem_cons.mp hmem with hmm | hmm
                · rw [hmm]; exact k1
                · exact k6 q hmm
              · intro q hmem
                rcases List.mem_append.mp hmem with hmm | hmm
                · intro y hy; exact le_trans (j6 q hmm y hy) k1
                · exact k7 q hmm
              · simpa [reachesThree] using k8
              · intro hco
                have hlast := k9 (by simpa using hco)
                simp only [lastImpFrom, if_pos]
                rw [hlast, hbit]
              · rcases k11 with k11 | k11
                · rcases j10 with j10 | j10
                  · exact Or.inl (k11.trans j10)
                  · exact Or.inr (List.mem_append_left _ (k11 ▸ j10))
                · exact Or.inr (List.mem_append_right _ k11)
          | false =>
            rw [himp] at h
            rw [if_neg (by simp)] at h
            obtain ⟨hbq, hb⟩ := j8 rfl himp
            by_cases hst : 3 ≤ stag + 1
            · rw [if_pos hst] at h
              simp only [Except.ok.injEq] at h
              subst h
              dsimp only
              refine ⟨le_of_le_of_eq j1 j2.symm, ?_, ?_, ?_, ?_, ?_, ?_, ?_, ?_, by simp, ?_⟩
              · rw [j2]; exact h0'
              · rw [j2]; exact h1'
              · rw [hb]; omega
              · simp only [List.chain'_cons, List.chain'_singleton, and_true]
                exact j1
              · intro q hmem
                simp only [List.mem_singleton] at hmem
                rw [hmem, j2]
              · intro q hmem y hy
                rw [j2]; exact j6 q hmem y hy
              · simp [reachesThree, hst]
              · intro _
                rw [hb]
                simp [lastImpFrom]
              · rw [j2]
                rcases j10 with j10 | j10
                · exact Or.inl j10
                · exact Or.inr j10
            · rw [if_neg hst] at h
              cases hrec : optimLoop element keyParams maxIterations fuel (iterIdx + 1)
                  b' b' bq' (stag + 1) with
              | error err => rw [hrec, exceptBindErr] at h; exact absurd h (by simp)
              | ok out' =>
                rw [hrec, exceptBindOk] at h
                simp only [Except.ok.injEq] at h
                subst h
                have hbit : b'.iterations ≤ iterIdx + 1 := by rw [hb]; omega
                have IH := ihf (iterIdx + 1) b' b' bq' (stag + 1) out' hrec j2 j3 h0' h1'
                  hbit (by omega)
                obtain ⟨k1, k2, k3, k4, k5, k6, k7, k8, k9, k10, k11⟩ := IH
                dsimp only
                refine ⟨le_trans j1 k1, k2, k3, k4, ?_, ?_, ?_, ?_, ?_, by simpa using k10, ?_⟩
                · exact List.chain'_cons.mpr ⟨j1, k5⟩
                · intro q hmem
                  rcases List.mem_cons.mp hmem with hmm | hmm
                  · rw [hmm]; exact k1
                  · exact k6 q hmm
                · intro q hmem
                  rcases List.mem_append.mp hmem with hmm | hmm
                  · intro y hy; exact le_trans (j6 q hmm y hy) k1
                  · exact k7 q hmm
                · simpa [reachesThree, hst] using k8
                · intro hco
                  have hlast := k9 (by simpa using hco)
                  simp only [lastImpFrom]
                  rw [hlast, hb]
                  simp
                · rcases k11 with k11 | k11
                  · rcases j10 with j10 | j10
                    · exact Or.inl (k11.trans j10)
                    · exact Or.inr (List.mem_append_left _ (k11 ▸ j10))
                  · exact Or.inr (List.mem_append_right _ k11)


/-! ## Helper lemmas for the claims -/

theorem reachesThree_fff (s : ℕ) (t : List Bool) :
    reachesThree s (false :: false :: false :: t) = true := by
  simp only [reachesThree, Bool.false_eq_true, if_false]
  split_ifs <;> first | rfl | omega

/-- Three consecutive non-improving iterations make the stagnation
counter reach `3`, whatever its starting value. -/
theorem reachesThree_of_three (s : ℕ) (l : List Bool)
    (h : hasThreeConsecutiveFalse l = true) : reachesThree s l = true := by
  induction l generalizing s with
  | nil => exact absurd h (by decide)
  | cons f rest ih =>
    cases f with
    | true =>
      have h' : hasThreeConsecutiveFalse rest = true := h
      exact ih 0 h'
    | false =>
      rcases rest with _ | ⟨f2, rest2⟩
      · exact absurd h (by decide)
      · cases f2 with
        | true =>
          have h' : hasThreeConsecutiveFalse (true :: rest2) = true := h
          show (if 3 ≤ s + 1 then true else reachesThree (s + 1) (true :: rest2)) = true
          by_cases hs : 3 ≤ s + 1
          · rw [if_pos hs]
          · rw [if_neg hs]; exact ih (s + 1) h'
        | false =>
          rcases rest2 with _ | ⟨f3, rest3⟩
          · exact absurd h (by decide)
          · cases f3 with
            | false => exact reachesThree_fff s rest3
            | true =>
              have h' : hasThreeConsecutiveFalse (false :: true :: rest3) = true := h
              show (if 3 ≤ s + 1 then true
                else reachesThree (s + 1) (false :: true :: rest3)) = true
              by_cases hs : 3 ≤ s + 1
              · rw [if_pos hs]
              · rw [if_neg hs]; exact ih (s + 1) h'

/-- The iteration budget is always one of the three class values. -/
theorem calculateMaxIterations_cases (L : ℚ → JNum) (e : Element) :
    calculateMaxIterations L e = 5 ∨ calculateMaxIterations L e = 8 ∨
      calculateMaxIterations L e = 12 := by
  simp only [calculateMaxIterations]
  split_ifs <;> simp

/-- For a type with no key-parameter table entry, the selected
parameters are a prefix of the `['width', 'height']` default. -/
theorem selectKeyParams_default (L : ℚ → JNum) (e : Element)
    (h : optimizationParamsLookup e.type = none) :
    selectKeyParams L e = ["width", "height"] ∨ selectKeyParams L e = ["width"] := by
  simp only [selectKeyParams, h]
  split_ifs <;> simp

/-- The optimizer entry point, specialized to the pipeline call (base
candidate from `performBasicMapping`, quality `0.3`, iterations `0`). -/
theorem performAdaptiveOptimization_spec (L : ℚ → JNum) (e : Element) (out : OptOut)
    (h : performAdaptiveOptimization L (performBasicMapping e) e = .ok out) :
    0.3 ≤ out.comp.quality ∧ 0 ≤ out.comp.quality ∧ out.comp.quality ≤ 1 ∧
    out.comp.iterations ≤ calculateMaxIterations L e ∧
    List.Chain' (· ≤ ·) (0.3 :: out.bqs) ∧
    (∀ q ∈ out.bqs, q ≤ out.comp.quality) ∧
    (∀ q ∈ out.evals, finLe q out.comp.quality) ∧
    (out.reason = .stagnant ↔ reachesThree 0 out.flags = true) ∧
    (out.reason = .stagnant ∨ out.reason = .exhausted →
      out.comp.iterations = lastImpFrom 0 0 out.flags) ∧
    (out.comp.quality = 0.3 ∨ JNum.fin out.comp.quality ∈ out.evals) := by
  have S := optimLoop_spec e (selectKeyParams L e) (calculateMaxIterations L e)
    (calculateMaxIterations L e) 0 (performBasicMapping e) (performBasicMapping e)
    0.3 0 out h rfl (by norm_num) (by norm_num) (by norm_num) (Nat.le_refl 0)
    (Nat.zero_add _)
  obtain ⟨s1, s2, s3, s4, s5, s6, s7, s8, s9, _, s11⟩ := S
  exact ⟨s1, s2, s3, s4, s5, s6, s7, s8, s9, s11⟩

set_option maxRecDepth 200000 in
/-- Against `elemC1` (no `properties` object) every quality evaluation
throws, so the optimization run fails with `TypeError` for any log
model: the budget and key-parameter choices only pick which variant is
evaluated first, and all evaluations throw. -/
theorem performAdaptiveOptimization_elemC1_err (L : ℚ → JNum) :
    performAdaptiveOptimization L (performBasicMapping elemC1) elemC1 = .error .typeError := by
  have hkp := selectKeyParams_default L elemC1 rfl
  have hmi := calculateMaxIterations_cases L elemC1
  simp only [performAdaptiveOptimization]
  rcases hkp with hkp | hkp <;> rcases hmi with hmi | hmi | hmi <;> rw [hkp, hmi] <;> decide

set_option maxRecDepth 200000 in
/-- The concrete run on `elemNeutral`. -/
theorem runNeutral_eq :
    performAdaptiveOptimization jsLogModel (performBasicMapping elemNeutral) elemNeutral =
      .ok outNeutral := by decide

set_option maxRecDepth 200000 in
/-- The concrete run on `elemNegWidth`. -/
theorem runNegWidth_eq :
    performAdaptiveOptimization jsLogModel (performBasicMapping elemNegWidth) elemNegWidth =
      .ok outNegWidth := by decide

set_option maxRecDepth 200000 in
/-- The concrete run on `elemC1Amended`. -/
theorem runC1Amended_eq :
    performAdaptiveOptimization jsLogModel (performBasicMapping elemC1Amended) elemC1Amended =
      .ok outC1Amended := by decide


/-- Prepending an evaluated quality prepends it to the trace. -/
theorem innerEvals_consEval (q : JNum) (o : InnerOut) :
    innerEvals (consEval q o) = q :: innerEvals o := by
  cases o <;> rfl

/-- When no quality evaluated during one variant scan is strictly
above the base `0.3`, the scan changes nothing: no update, no
threshold, the improved flag stays put. -/
theorem runVariants_noImprove (e : Element) (iterIdx : ℕ) :
    ∀ (vs : List Candidate) (b : Candidate) (imp : Bool) (out : InnerOut),
    runVariants e iterIdx vs 0.3 b imp = .ok out →
    (∀ q ∈ innerEvals out, jgtb q (.fin 0.3) = false) →
    out = .cont 0.3 b imp (innerEvals out) := by
  intro vs
  induction vs with
  | nil =>
    intro b imp out h hyp
    simp only [runVariants, Except.ok.injEq] at h
    rw [← h]
    rfl
  | cons v rest ih =>
    intro b imp out h hyp
    rw [runVariants] at h
    cases he : evaluateComponentQualityStrict v.baseParams e with
    | error err => rw [he, exceptBindErr] at h; exact absurd h (by simp)
    | ok quality =>
      rw [he, exceptBindOk] at h
      split at h
      case h_1 x =>
        by_cases hth : (0.95:ℚ) ≤ x
        · rw [if_pos hth] at h
          simp only [Except.ok.injEq] at h
          have hmem : JNum.fin x ∈ innerEvals out := by
            rw [← h]
            exact List.mem_singleton_self _
          have hx : ¬ (0.3:ℚ) < x :=
            of_decide_eq_false (by simpa [jgtb, jltb] using hyp _ hmem)
          exact absurd (lt_of_lt_of_le (by norm_num) hth) hx
        · rw [if_neg hth] at h
          by_cases hx : (0.3:ℚ) < x
          · rw [if_pos hx, if_pos hx, decide_eq_true hx, Bool.or_true] at h
            cases hrec : runVariants e iterIdx rest x
                { v with quality := x, iterations := iterIdx + 1 } true with
            | error err => rw [hrec, exceptBindErr] at h; exact absurd h (by simp)
            | ok out' =>
              rw [hrec, exceptBindOk] at h
              simp only [Except.ok.injEq] at h
              have hmem : JNum.fin x ∈ innerEvals out := by
                rw [← h, innerEvals_consEval]
                exact List.mem_cons_self _ _
              have hxf : ¬ (0.3:ℚ) < x :=
                of_decide_eq_false (by simpa [jgtb, jltb] using hyp _ hmem)
              exact absurd hx hxf
          · rw [if_neg hx, if_neg hx, decide_eq_false hx, Bool.or_false] at h
            cases hrec : runVariants e iterIdx rest 0.3 b imp with
            | error err => rw [hrec, exceptBindErr] at h; exact absurd h (by simp)
            | ok out' =>
              rw [hrec, exceptBindOk] at h
              simp only [Except.ok.injEq] at h
              have hyp' : ∀ q ∈ innerEvals out', jgtb q (.fin 0.3) = false := by
                intro q hq
                apply hyp
                rw [← h, innerEvals_consEval]
                exact List.mem_cons_of_mem _ hq
              have hco := ih b imp out' hrec hyp'
              rw [← h, hco]
              rfl
      case h_2 qdup hfa =>
        cases hrec : runVariants e iterIdx rest 0.3 b imp with
        | error err => rw [hrec, exceptBindErr] at h; exact absurd h (by simp)
        | ok out' =>
          rw [hrec, exceptBindOk] at h
          simp only [Except.ok.injEq] at h
          have hyp' : ∀ q ∈ innerEvals out', jgtb q (.fin 0.3) = false := by
            intro q hq
            apply hyp
            rw [← h, innerEvals_consEval]
            exact List.mem_cons_of_mem _ hq
          have hco := ih b imp out' hrec hyp'
          rw [← h, hco]
          rfl

/-- When no quality evaluated during the whole run is strictly above
the base `0.3`, the loop hands back exactly the candidate it started
from. -/
theorem optimLoop_noImprove (e : Element) (kp : List String) (mi : ℕ) :
    ∀ (fuel iterIdx : ℕ) (cur b : Candidate) (stag : ℕ) (out : OptOut),
    optimLoop e kp mi fuel iterIdx cur b 0.3 stag = .ok out →
    (∀ q ∈ out.evals, jgtb q (.fin 0.3) = false) →
    out.comp = b := by
  intro fuel
  induction fuel with
  | zero =>
    intro iterIdx cur b stag out h hyp
    simp only [optimLoop, Except.ok.injEq] at h
    rw [← h]
  | succ fuel ihf =>
    intro iterIdx cur b stag out h hyp
    rw [optimLoop] at h
    cases hv : generateAdaptiveVariants cur kp
        (calculateVariationIntensity iterIdx mi stag) with
    | error err => rw [hv, exceptBindErr] at h; exact absurd h (by simp)
    | ok variants =>
      rw [hv, exceptBindOk] at h
      cases hi : runVariants e iterIdx variants 0.3 b false with
      | error err => rw [hi, exceptBindErr] at h; exact absurd h (by simp)
      | ok inner =>
        rw [hi, exceptBindOk] at h
        split at h
        case h_1 c ev =>
          simp only [Except.ok.injEq] at h
          have hyp' : ∀ q ∈ innerEvals (InnerOut.thresh c ev), jgtb q (.fin 0.3) = false := by
            intro q hq
            apply hyp
            rw [← h]
            exact hq
          have hco := runVariants_noImprove e iterIdx variants b false (.thresh c ev) hi hyp'
          exact absurd hco (by simp)
        case h_2 bq' b' imp' ev =>
          cases imp' with
          | true =>
            rw [if_pos rfl] at h
            cases hrec : optimLoop e kp mi fuel (iterIdx + 1) b' b' bq' 0 with
            | error err => rw [hrec, exceptBindErr] at h; exact absurd h (by simp)
            | ok out' =>
              rw [hrec, exceptBindOk] at h
              simp only [Except.ok.injEq] at h
              have hyp' : ∀ q ∈ innerEvals (InnerOut.cont bq' b' true ev),
                  jgtb q (.fin 0.3) = false := by
                intro q hq
                apply hyp
                rw [← h]
                exact List.mem_append_left _ hq
              have hco := runVariants_noImprove e iterIdx variants b false
                (.cont bq' b' true ev) hi hyp'
              simp only [InnerOut.cont.injEq] at hco
              exact absurd hco.2.2.1 (by simp)
          | false =>
            rw [if_neg (by simp)] at h
            by_cases hst : 3 ≤ stag + 1
            · rw [if_pos hst] at h
              simp only [Except.ok.injEq] at h
              have hyp' : ∀ q ∈ innerEvals (InnerOut.cont bq' b' false ev),
                  jgtb q (.fin 0.3) = false := by
                intro q hq
                apply hyp
                rw [← h]
                exact hq
              have hco := runVariants_noImprove e iterIdx variants b false
                (.cont bq' b' false ev) hi hyp'
              simp only [InnerOut.cont.injEq] at hco
              rw [← h]
              exact hco.2.1
            · rw [if_neg hst] at h
              cases hrec : optimLoop e kp mi fuel (iterIdx + 1) b' b' bq' (stag + 1) with
              | error err => rw [hrec, exceptBindErr] at h; exact absurd h (by simp)
              | ok out' =>
                rw [hrec, exceptBindOk] at h
                simp only [Except.ok.injEq] at h
                have hyp' : ∀ q ∈ innerEvals (InnerOut.cont bq' b' false ev),
                    jgtb q (.fin 0.3) = false := by
                  intro q hq
                  apply hyp
                  rw [← h]
                  exact List.mem_append_left _ hq
                have hco := runVariants_noImprove e iterIdx variants b false
                  (.cont bq' b' false ev) hi hyp'
                simp only [InnerOut.cont.injEq] at hco
                obtain ⟨hbq, hb', _⟩ := hco
                subst hbq
                rw [hb'] at hrec
                have hyp'' : ∀ q ∈ out'.evals, jgtb q (.fin 0.3) = false := by
                  intro q hq
                  apply hyp
                  rw [← h]
                  exact List.mem_append_right _ hq
                have hre := ihf (iterIdx + 1) b b (stag + 1) out' hrec hyp''
                rw [← h]
                exact hre

/-- Against `elemNeutral` every parameter set scores exactly `0.3`:
the descriptor has no position (size `0`) and empty properties (all
other checks neutral `0.5`), so no check ever reads the parameters. -/
theorem evalNeutral_const (p : BaseParams) :
    evaluateComponentQualityStrict p elemNeutral = .ok (.fin 0.3) := rfl

/-- Every entry of the variation table is a non-empty factor list. -/
theorem paramVariationsLookup_nonempty (param : String) (bv : List JsVal)
    (h : paramVariationsLookup param = some bv) : bv ≠ [] := by
  simp only [paramVariationsLookup] at h
  split_ifs at h <;>
    (simp only [Option.some.injEq] at h; rw [← h]; simp)

/-- `generateColorVariations` never hands back an empty list: the
original value always leads the result. -/
theorem genColorVariations_nonempty (v : JsVal) (intensity : ℚ) (l : List JsVal)
    (h : generateColorVariations v intensity = .ok l) : l ≠ [] := by
  cases v with
  | str s =>
    simp only [generateColorVariations, Except.ok.injEq] at h
    subst h
    simp only [generateColorVariationsStr]
    split
    · exact List.cons_ne_nil _ _
    · exact List.cons_ne_nil _ _
  | num q => exact Except.noConfusion h
  | undefined => exact Except.noConfusion h
  | nanv => exact Except.noConfusion h
  | pinfv => exact Except.noConfusion h
  | ninfv => exact Except.noConfusion h

/-- A color-safe truthy value is a string. -/
theorem isStr_of_safe_truthy (v : JsVal) (hs : colorSafe v = true)
    (ht : truthyJV v = true) : ∃ s, v = JsVal.str s := by
  cases v with
  | str s => exact ⟨s, rfl⟩
  | num q =>
    exfalso
    simp only [colorSafe, isStrJV, Bool.false_or] at hs
    rw [ht] at hs
    exact absurd hs (by simp)
  | undefined => exact absurd ht (by simp [truthyJV])
  | nanv => exact absurd ht (by simp [truthyJV])
  | pinfv =>
    exfalso
    simp only [colorSafe, isStrJV, Bool.false_or] at hs
    rw [ht] at hs
    exact absurd hs (by simp)
  | ninfv =>
    exfalso
    simp only [colorSafe, isStrJV, Bool.false_or] at hs
    rw [ht] at hs
    exact absurd hs (by simp)

/-- On two strings the full-value similarity agrees with the string
scoring. -/
theorem calcColorSimV_str (s1 s2 : String) :
    calculateColorSimilarityV (.str s1) (.str s2) = .ok (calculateColorSimilarity s1 s2) := by
  by_cases h : s1 = s2
  · subst h
    unfold calculateColorSimilarityV
    rw [if_pos (show jsStrictEq (JsVal.str s1) (JsVal.str s1) = true by simp [jsStrictEq])]
    simp [calculateColorSimilarity]
  · unfold calculateColorSimilarityV
    rw [if_neg (show ¬ jsStrictEq (JsVal.str s1) (JsVal.str s2) = true by
      simp [jsStrictEq, h])]

/-- A similarity call on values that are not strictly equal and not
both strings throws. -/
theorem calcColorSimV_err (c1 c2 : JsVal) (hne : jsStrictEq c1 c2 = false)
    (hns : isStrJV c1 = false ∨ isStrJV c2 = false) :
    calculateColorSimilarityV c1 c2 = .error .typeError := by
  unfold calculateColorSimilarityV
  rw [hne, if_neg (by simp)]
  cases c1 <;> cases c2 <;>
    first
      | rfl
      | (rcases hns with hh | hh <;> exact absurd hh (by simp [isStrJV]))

/-- A color channel over safe slots never throws. -/
theorem colorChanV_ok (p q : JsVal) (w : ℚ) (hp : colorSafe p = true)
    (hq : colorSafe q = true) (acc : JNum × ℕ) : ∃ r, colorChanV p q w acc = .ok r := by
  unfold colorChanV
  by_cases hg : (truthyJV p && truthyJV q) = true
  · rw [if_pos hg]
    rw [Bool.and_eq_true] at hg
    obtain ⟨s1, rfl⟩ := isStr_of_safe_truthy p hp hg.1
    obtain ⟨s2, rfl⟩ := isStr_of_safe_truthy q hq hg.2
    rw [calcColorSimV_str]
    exact ⟨_, rfl⟩
  · rw [if_neg hg]
    exact ⟨acc, rfl⟩

/-- The color match never throws when every color slot is a string or
falsy. -/
theorem evaluateColorMatchV_ok (params : ParamsV) (props : PropsV)
    (h1 : colorSafe props.color = true) (h2 : colorSafe params.color = true)
    (h3 : colorSafe props.backgroundColor = true) (h4 : colorSafe params.backgroundColor = true)
    (h5 : colorSafe props.textColor = true) (h6 : colorSafe params.textColor = true) :
    ∃ v, evaluateColorMatchV params props = .ok v := by
  obtain ⟨r1, hr1⟩ := colorChanV_ok props.color params.color 0.5 h1 h2 (.fin 0, 0)
  obtain ⟨r2, hr2⟩ := colorChanV_ok props.backgroundColor params.backgroundColor 0.3 h3 h4 r1
  obtain ⟨r3, hr3⟩ := colorChanV_ok props.textColor params.textColor 0.2 h5 h6 r2
  refine ⟨if 0 < r3.2 then r3.1 else JNum.fin 0.5, ?_⟩
  simp only [evaluateColorMatchV, hr1, exceptBindOk, hr2, hr3]

/-- The typography match never throws when the text-color slots are
strings or falsy. -/
theorem evaluateTypographyMatchV_ok (params : ParamsV) (props : PropsV)
    (h5 : colorSafe props.textColor = true) (h6 : colorSafe params.textColor = true) :
    ∃ v, evaluateTypographyMatchV params props = .ok v := by
  obtain ⟨r, hr⟩ := colorChanV_ok props.textColor params.textColor 0.3 h5 h6
    (typoPureSteps params props)
  refine ⟨if 0 < r.2 then r.1 else JNum.fin 0.5, ?_⟩
  simp only [evaluateTypographyMatchV, hr, exceptBindOk]

/-- A truthy non-string primary color against a truthy unequal color
parameter makes the color match throw. -/
theorem evaluateColorMatchV_err1 (params : ParamsV) (props : PropsV)
    (ht1 : truthyJV props.color = true) (ht2 : truthyJV params.color = true)
    (hne : jsStrictEq props.color params.color = false)
    (hns : isStrJV props.color = false ∨ isStrJV params.color = false) :
    evaluateColorMatchV params props = .error .typeError := by
  have hg : (truthyJV props.color && truthyJV params.color) = true := by
    rw [ht1, ht2]
    rfl
  have hch : colorChanV props.color params.color 0.5 (.fin 0, 0) = .error .typeError := by
    unfold colorChanV
    rw [if_pos hg, calcColorSimV_err _ _ hne hns]
    rfl
  simp only [evaluateColorMatchV, hch, exceptBindErr]

/-- The parameters that carry a variation rule. -/
theorem paramVariationsLookup_names (param : String) (bv : List JsVal)
    (h : paramVariationsLookup param = some bv) :
    param = "width" ∨ param = "height" ∨ param = "fontSize" ∨ param = "color" := by
  simp only [paramVariationsLookup] at h
  split_ifs at h with h1 h2 h3 h4
  · exact Or.inl h1
  · exact Or.inr (Or.inl h2)
  · exact Or.inr (Or.inr (Or.inr h3))
  · exact Or.inr (Or.inr (Or.inl h4))

/-! ## The claims -/

/-- Claim C7: for every iteration index below the budget, positive
budget and any stagnation count, the variation intensity equals
`min(0.3, 0.05 + 0.15*(iter/maxIterations) + 0.05*stagnationCount)`
and lies in the interval `(0, 0.3]`. -/
theorem claim_C7 (iter maxIterations stagnationCount : ℕ)
    (hm : 0 < maxIterations) (hi : iter < maxIterations) :
    calculateVariationIntensity iter maxIterations stagnationCount =
      min 0.3 (0.05 + 0.15 * ((iter : ℚ) / (maxIterations : ℚ)) +
        0.05 * (stagnationCount : ℚ)) ∧
    0 < calculateVariationIntensity iter maxIterations stagnationCount ∧
    calculateVariationIntensity iter maxIterations stagnationCount ≤ 0.3 := by
  have hd : (0:ℚ) ≤ (iter : ℚ) / (maxIterations : ℚ) :=
    div_nonneg (Nat.cast_nonneg _) (Nat.cast_nonneg _)
  have hs : (0:ℚ) ≤ (stagnationCount : ℚ) := Nat.cast_nonneg _
  have h1 : (0:ℚ) ≤ ((iter : ℚ) / (maxIterations : ℚ)) * 0.15 :=
    mul_nonneg hd (by norm_num)
  have h2 : (0:ℚ) ≤ (stagnationCount : ℚ) * 0.05 := mul_nonneg hs (by norm_num)
  refine ⟨?_, ?_, ?_⟩
  · simp only [calculateVariationIntensity]
    congr 1
    ring
  · simp only [calculateVariationIntensity]
    exact lt_min (by norm_num) (by linarith)
  · simp only [calculateVariationIntensity]
    exact min_le_left _ _

/-- Claim C7 witness: iteration 2 of a budget of 8 with one stagnant
round. -/
theorem claim_C7_witness :
    0 < 8 ∧ 2 < 8 ∧
    (calculateVariationIntensity 2 8 1 =
        min 0.3 (0.05 + 0.15 * (((2:ℕ) : ℚ) / ((8:ℕ) : ℚ)) + 0.05 * ((1:ℕ) : ℚ)) ∧
      0 < calculateVariationIntensity 2 8 1 ∧
      calculateVariationIntensity 2 8 1 ≤ 0.3) :=
  ⟨by norm_num, by norm_num, claim_C7 2 8 1 (by norm_num) (by norm_num)⟩

/-- Claim C10: a type with no entry in the optimization-parameter
table defaults to exactly `["width", "height"]`, and every parameter
the selector then keeps is one of the two size parameters. -/
theorem claim_C10 (L : ℚ → JNum) (e : Element)
    (h : optimizationParamsLookup e.type = none) :
    (optimizationParamsLookup e.type).getD ["width", "height"] = ["width", "height"] ∧
    ∀ p ∈ selectKeyParams L e, p = "width" ∨ p = "height" := by
  refine ⟨by rw [h]; rfl, ?_⟩
  intro p hp
  rcases selectKeyParams_default L e h with hk | hk <;> rw [hk] at hp <;>
    simp only [List.mem_cons, List.not_mem_nil, or_false] at hp
  · exact hp
  · exact Or.inl hp

/-- Claim C10 witness: the `header` type has no table entry; with the
modelled log the selector keeps only size parameters. -/
theorem claim_C10_witness :
    ((optimizationParamsLookup elemHeader.type).getD ["width", "height"] =
        ["width", "height"]) ∧
    ∀ p ∈ selectKeyParams jsLogModel elemHeader, p = "width" ∨ p = "height" :=
  claim_C10 jsLogModel elemHeader rfl

/-- Claim C5: every quality in the pipeline lies in `[0, 1]` and every
iteration count fits the complexity budget: finite evaluator scores
are clamped to `[0, 1]`; the base candidate starts at `(0.3, 0)`; an
optimized component has quality in `[0, 1]` and iterations within the
budget; the per-descriptor artifact inherits those bounds (the
fallback path gives `(0.1, 0)`); the budget is always 5, 8 or 12; the
fallback artifact is `(0.1, 0)` and the aggregator `(1, 0)`. -/
theorem claim_C5 (L : ℚ → JNum) :
    (∀ (params : BaseParams) (element : Element) (v : JNum) (x : ℚ),
        evaluateComponentQualityStrict params element = .ok v → v = .fin x →
        0 ≤ x ∧ x ≤ 1) ∧
    (∀ e : Element, (performBasicMapping e).quality = 0.3 ∧
        (performBasicMapping e).iterations = 0) ∧
    (∀ (e : Element) (out : OptOut),
        performAdaptiveOptimization L (performBasicMapping e) e = .ok out →
        0 ≤ out.comp.quality ∧ out.comp.quality ≤ 1 ∧
        out.comp.iterations ≤ calculateMaxIterations L e) ∧
    (∀ e : Element, 0 ≤ (processElement L e).quality ∧ (processElement L e).quality ≤ 1 ∧
        (processElement L e).iterations ≤ calculateMaxIterations L e) ∧
    (∀ e : Element, calculateMaxIterations L e = 5 ∨ calculateMaxIterations L e = 8 ∨
        calculateMaxIterations L e = 12) ∧
    (∀ e : Element, (generateFallbackComponent e).quality = 0.1 ∧
        (generateFallbackComponent e).iterations = 0) ∧
    generateMainComponent.quality = 1 ∧ generateMainComponent.iterations = 0 := by
  refine ⟨?_, fun e => ⟨rfl, rfl⟩, ?_, ?_, fun e => calculateMaxIterations_cases L e,
    fun e => ⟨rfl, rfl⟩, rfl, rfl⟩
  · intro params element v x hok hx
    rcases evaluateComponentQualityStrict_ok_cases params element v hok with hn | ⟨y, hy, h0, h1⟩
    · rw [hx] at hn; exact absurd hn (by simp)
    · rw [hx] at hy
      simp only [JNum.fin.injEq] at hy
      subst hy
      exact ⟨h0, h1⟩
  · intro e out hok
    obtain ⟨_, s2, s3, s4, _, _, _, _, _, _⟩ := performAdaptiveOptimization_spec L e out hok
    exact ⟨s2, s3, s4⟩
  · intro e
    unfold processElement
    cases hpo : performAdaptiveOptimization L (performBasicMapping e) e with
    | ok out =>
      obtain ⟨_, s2, s3, s4, _, _, _, _, _, _⟩ := performAdaptiveOptimization_spec L e out hpo
      exact ⟨s2, s3, s4⟩
    | error err =>
      exact ⟨show (0:ℚ) ≤ 0.1 by norm_num, show (0.1:ℚ) ≤ 1 by norm_num, Nat.zero_le _⟩

/-- Claim C5 witness: the bounds at the concrete pipeline points: the
base candidate of `elemNeutral`, an evaluator score, the processed
negative-width artifact, the fallback and the aggregator. -/
theorem claim_C5_witness :
    ((performBasicMapping elemNeutral).quality = 0.3 ∧
      (performBasicMapping elemNeutral).iterations = 0) ∧
    (0 ≤ (0.3:ℚ) ∧ (0.3:ℚ) ≤ 1) ∧
    (0 ≤ (processElement jsLogModel elemNegWidth).quality ∧
      (processElement jsLogModel elemNegWidth).quality ≤ 1 ∧
      (processElement jsLogModel elemNegWidth).iterations ≤
        calculateMaxIterations jsLogModel elemNegWidth) ∧
    ((generateFallbackComponent elemC1).quality = 0.1 ∧
      (generateFallbackComponent elemC1).iterations = 0) ∧
    generateMainComponent.quality = 1 :=
  ⟨(claim_C5 jsLogModel).2.1 elemNeutral,
   (claim_C5 jsLogModel).1 (extractBaseParams elemNeutral) elemNeutral (JNum.fin 0.3) 0.3
     (evalNeutral_const (extractBaseParams elemNeutral)) rfl,
   (claim_C5 jsLogModel).2.2.2.1 elemNegWidth,
   (claim_C5 jsLogModel).2.2.2.2.2.1 elemC1,
   (claim_C5 jsLogModel).2.2.2.2.2.2.1⟩

/-- Claim C4: within one optimization run the best-so-far quality is
monotonically non-decreasing from the base `0.3`, every recorded
best-so-far value stays at or below the returned quality, every finite
evaluated variant score stays at or below the returned quality, the
returned quality never drops below the base `0.3`, and it is either
the untouched base quality or a score attained by an evaluated
variant. -/
theorem claim_C4 (L : ℚ → JNum) (e : Element) (out : OptOut)
    (h : performAdaptiveOptimization L (performBasicMapping e) e = .ok out) :
    List.Chain' (· ≤ ·) (0.3 :: out.bqs) ∧
    (∀ q ∈ out.bqs, q ≤ out.comp.quality) ∧
    (∀ q ∈ out.evals, finLe q out.comp.quality) ∧
    0.3 ≤ out.comp.quality ∧
    (out.comp.quality = 0.3 ∨ JNum.fin out.comp.quality ∈ out.evals) := by
  obtain ⟨s1, _, _, _, s5, s6, s7, _, _, s10⟩ := performAdaptiveOptimization_spec L e out h
  exact ⟨s5, s6, s7, s1, s10⟩

/-- Claim C4 witness: the run on `elemNeutral`, whose best-so-far
trace is `0.3, 0.3, 0.3, 0.3` and whose 36 evaluations all score
exactly `0.3`. -/
theorem claim_C4_witness :
    performAdaptiveOptimization jsLogModel (performBasicMapping elemNeutral) elemNeutral =
        .ok outNeutral ∧
    (List.Chain' (· ≤ ·) (0.3 :: outNeutral.bqs) ∧
      (∀ q ∈ outNeutral.bqs, q ≤ outNeutral.comp.quality) ∧
      (∀ q ∈ outNeutral.evals, finLe q outNeutral.comp.quality) ∧
      0.3 ≤ outNeutral.comp.quality ∧
      (outNeutral.comp.quality = 0.3 ∨ JNum.fin outNeutral.comp.quality ∈ outNeutral.evals)) :=
  ⟨runNeutral_eq, claim_C4 jsLogModel elemNeutral outNeutral runNeutral_eq⟩

/-- Claim C6: a run whose flag trace shows three consecutive
non-improving iterations stopped in the stagnant state — not by
exhausting the budget — and its reported iteration count is the
iteration of the last improvement (`0` when the base candidate was
never beaten), not the iteration at which the loop stopped. -/
theorem claim_C6 (L : ℚ → JNum) (e : Element) (out : OptOut)
    (h : performAdaptiveOptimization L (performBasicMapping e) e = .ok out)
    (h3 : hasThreeConsecutiveFalse out.flags = true) :
    out.reason = .stagnant ∧ out.reason ≠ .exhausted ∧
    out.comp.iterations = lastImpFrom 0 0 out.flags := by
  obtain ⟨_, _, _, _, _, _, _, s8, s9, _⟩ := performAdaptiveOptimization_spec L e out h
  have hst : out.reason = .stagnant := s8.mpr (reachesThree_of_three 0 out.flags h3)
  refine ⟨hst, ?_, s9 (Or.inl hst)⟩
  rw [hst]
  decide

/-- Claim C6 witness: the run on `elemNeutral` stagnates with flags
`[false, false, false]` and reports iteration `0`, the last (never
happened) improvement. -/
theorem claim_C6_witness :
    performAdaptiveOptimization jsLogModel (performBasicMapping elemNeutral) elemNeutral =
        .ok outNeutral ∧
    hasThreeConsecutiveFalse outNeutral.flags = true ∧
    (outNeutral.reason = .stagnant ∧ outNeutral.reason ≠ .exhausted ∧
      outNeutral.comp.iterations = lastImpFrom 0 0 outNeutral.flags) :=
  ⟨runNeutral_eq, by decide,
   claim_C6 jsLogModel elemNeutral outNeutral runNeutral_eq (by decide)⟩

/-- Claim C9: the base candidate carries the constant quality `0.3`
that no evaluator ever produced, and when no generated variant of the
run scores strictly above `0.3` the run returns that base candidate
untouched, still at quality `0.3` — however well its parameters match
the descriptor. -/
theorem claim_C9 (L : ℚ → JNum) (e : Element) (out : OptOut)
    (h : performAdaptiveOptimization L (performBasicMapping e) e = .ok out)
    (hyp : ∀ q ∈ out.evals, jgtb q (.fin 0.3) = false) :
    (performBasicMapping e).quality = 0.3 ∧
    out.comp = performBasicMapping e ∧ out.comp.quality = 0.3 := by
  simp only [performAdaptiveOptimization] at h
  have hb : out.comp = performBasicMapping e :=
    optimLoop_noImprove e (selectKeyParams L e) (calculateMaxIterations L e)
      (calculateMaxIterations L e) 0 (performBasicMapping e) (performBasicMapping e) 0 out h hyp
  exact ⟨rfl, hb, by rw [hb]; rfl⟩

/-- Claim C9 witness: against `elemNeutral` all 36 evaluated variants
score exactly `0.3`, so nothing beats the base and the run hands the
base candidate back. -/
theorem claim_C9_witness :
    (performBasicMapping elemNeutral).quality = 0.3 ∧
    outNeutral.comp = performBasicMapping elemNeutral ∧ outNeutral.comp.quality = 0.3 :=
  claim_C9 jsLogModel elemNeutral outNeutral runNeutral_eq (by decide)

set_option maxRecDepth 400000 in
/-- Claim C1 counterexample: for the literal claimed descriptor
`{position: {width: 300, height: 200}}` with no other properties, the
run never reaches the threshold return — every quality evaluation
reads `properties.color` off the missing `properties` object and
throws `TypeError`, so the whole optimization aborts and the pipeline
substitutes the `0.1` fallback artifact. -/
theorem claim_C1_counterexample :
    performAdaptiveOptimization jsLogModel (performBasicMapping elemC1) elemC1 =
      .error .typeError ∧
    processElement jsLogModel elemC1 = generateFallbackComponent elemC1 := by
  refine ⟨performAdaptiveOptimization_elemC1_err jsLogModel, ?_⟩
  unfold processElement
  rw [performAdaptiveOptimization_elemC1_err jsLogModel]

set_option maxRecDepth 1000000 in
/-- Claim C1 (amended): the `{width: 300, height: 200}` descriptor
additionally carrying a properties object that matches the candidate
reaches quality `0.996 ≥ 0.95` on the very first evaluated variant and
terminates via the threshold short-circuit with `iterations = 1`,
strictly below every possible budget, whatever the log model. -/
theorem claim_C1 (L : ℚ → JNum) (out : OptOut)
    (h : performAdaptiveOptimization L (performBasicMapping elemC1Amended) elemC1Amended =
      .ok out) :
    out.reason = .threshold ∧ 0.95 ≤ out.comp.quality ∧ out.comp.quality = 0.996 ∧
    out.comp.iterations = 1 ∧ out.comp.iterations < calculateMaxIterations L elemC1Amended := by
  have hkp := selectKeyParams_default L elemC1Amended rfl
  have hmi := calculateMaxIterations_cases L elemC1Amended
  simp only [performAdaptiveOptimization] at h
  rcases hkp with hkp | hkp <;> rcases hmi with hmi | hmi | hmi <;> rw [hkp, hmi] at h
  all_goals
    have hout : (Except.ok outC1Amended : Except JsError OptOut) = Except.ok out := by
      rw [← h]; decide
  all_goals
    simp only [Except.ok.injEq] at hout
  all_goals
    subst hout
  all_goals
    exact ⟨rfl, by decide, by decide, rfl, by rw [hmi]; decide⟩

/-- Claim C1 witness: the amended scenario at the modelled log. -/
theorem claim_C1_witness :
    performAdaptiveOptimization jsLogModel (performBasicMapping elemC1Amended) elemC1Amended =
        .ok outC1Amended ∧
    (outC1Amended.reason = .threshold ∧ 0.95 ≤ outC1Amended.comp.quality ∧
      outC1Amended.comp.quality = 0.996 ∧ outC1Amended.comp.iterations = 1 ∧
      outC1Amended.comp.iterations < calculateMaxIterations jsLogModel elemC1Amended) :=
  ⟨runC1Amended_eq, claim_C1 jsLogModel outC1Amended runC1Amended_eq⟩

/-- Claim C2 counterexample: the evaluator is not total — on a
descriptor with no properties object it throws `TypeError`, and on a
truthy non-string color value (here the number `42`) meeting a set
color parameter it throws `TypeError` inside `color1.replace`, in both
cases instead of degrading to a neutral score. -/
theorem claim_C2_counterexample :
    evaluateComponentQualityStrict (extractBaseParams elemC1) elemC1 = .error .typeError ∧
    evaluateComponentQualityStrictV paramsVStd elemVNum = .error .typeError := by
  exact ⟨evaluateComponentQualityStrict_err _ _ rfl, by decide⟩

/-- Claim C2 (amended): over arbitrary JS property and parameter
values, the evaluator returns a score without throwing on every
descriptor that has a properties object whose color slots (and the
candidate color parameters) are each a string or falsy, and color
strings that do not reduce to six hex digits degrade to the neutral
similarity `0.5`; it does not otherwise degrade malformed inputs: a
missing properties object throws `TypeError`, and so does a truthy
non-string color value meeting a truthy color parameter it is not
strictly equal to. -/
theorem claim_C2 :
    (∀ (params : ParamsV) (element : ElementV), element.properties = none →
        evaluateComponentQualityStrictV params element = .error .typeError) ∧
    (∀ (params : ParamsV) (element : ElementV) (props : PropsV),
        element.properties = some props →
        colorSafe props.color = true → colorSafe params.color = true →
        colorSafe props.backgroundColor = true → colorSafe params.backgroundColor = true →
        colorSafe props.textColor = true → colorSafe params.textColor = true →
        ∃ v, evaluateComponentQualityStrictV params element = .ok v) ∧
    (∀ (params : ParamsV) (element : ElementV) (props : PropsV),
        element.properties = some props →
        truthyJV props.color = true → truthyJV params.color = true →
        jsStrictEq props.color params.color = false →
        (isStrJV props.color = false ∨ isStrJV params.color = false) →
        evaluateComponentQualityStrictV params element = .error .typeError) ∧
    (∀ s1 s2 : String, s1 ≠ s2 →
        ¬((stripFirstHash s1).length = 6 ∧ (stripFirstHash s2).length = 6) →
        calculateColorSimilarityV (.str s1) (.str s2) = .ok (.fin 0.5)) := by
  refine ⟨?_, ?_, ?_, ?_⟩
  · intro params element hp
    simp only [evaluateComponentQualityStrictV, hp]
  · intro params element props hp h1 h2 h3 h4 h5 h6
    obtain ⟨cv, hcv⟩ := evaluateColorMatchV_ok params props h1 h2 h3 h4 h5 h6
    obtain ⟨tv, htv⟩ := evaluateTypographyMatchV_ok params props h5 h6
    refine ⟨jclamp01 (jadd (jadd (jadd (jmul (evaluateSizeMatchV params element.position)
      (.fin 0.4)) (jmul cv (.fin 0.25))) (jmul tv (.fin 0.2)))
      (jmul (evaluateContentMatchV params props) (.fin 0.15))), ?_⟩
    simp only [evaluateComponentQualityStrictV, hp, hcv, htv, exceptBindOk]
  · intro params element props hp ht1 ht2 hne hns
    simp only [evaluateComponentQualityStrictV, hp,
      evaluateColorMatchV_err1 params props ht1 ht2 hne hns, exceptBindErr]
  · intro s1 s2 hne hlen
    rw [calcColorSimV_str]
    simp only [Except.ok.injEq]
    simp only [calculateColorSimilarity]
    rw [if_neg hne, if_neg ?_]
    simp only [Bool.and_eq_true, decide_eq_true_eq]
    exact hlen

/-- Claim C2 witness: the missing-properties throw, a string-valued
descriptor evaluated without throwing, the numeric-color throw, and
the neutral degradation on two unparsable color names. -/
theorem claim_C2_witness :
    evaluateComponentQualityStrictV paramsVStd elemVNone = .error .typeError ∧
    (∃ v, evaluateComponentQualityStrictV paramsVStd elemVStr = .ok v) ∧
    evaluateComponentQualityStrictV paramsVStd elemVNum = .error .typeError ∧
    calculateColorSimilarityV (.str "red") (.str "blue") = .ok (.fin 0.5) :=
  ⟨claim_C2.1 paramsVStd elemVNone rfl,
   claim_C2.2.1 paramsVStd elemVStr propsVStr rfl (by decide) (by decide) (by decide)
     (by decide) (by decide) (by decide),
   claim_C2.2.2.1 paramsVStd elemVNum propsVNum rfl (by decide) (by decide) (by decide)
     (Or.inl (by decide)),
   claim_C2.2.2.2 "red" "blue" (by decide) (by decide)⟩

set_option maxRecDepth 1000000 in
/-- Claim C3 counterexample: in the 3-descriptor job with one negative
position width, the negative-width descriptor does NOT produce the
`0.1`-quality, `0`-iteration fallback — a negative width throws
nothing, and the optimizer improves that descriptor to quality `0.7`
at iteration `1`. -/
theorem claim_C3_counterexample :
    (processElements jsLogModel jobThree).map (fun a => (a.quality, a.iterations)) =
      [(0.3, 0), (0.7, 1), (0.3, 0)] ∧
    (processElements jsLogModel jobThree).length = 3 := by
  constructor <;> decide

/-- Claim C3 (amended): every 3-descriptor job yields exactly 3
per-descriptor artifacts and never aborts; a descriptor whose
optimization throws yields the `(0.1, 0)` fallback artifact, and every
other descriptor — a negative position width included — yields its
optimized candidate, never below the base quality `0.3`. -/
theorem claim_C3 (L : ℚ → JNum) (elements : List Element)
    (hlen : elements.length = 3) :
    (processElements L elements).length = 3 ∧
    ∀ e ∈ elements,
      (∀ err, performAdaptiveOptimization L (performBasicMapping e) e = .error err →
        processElement L e = generateFallbackComponent e) ∧
      (∀ out, performAdaptiveOptimization L (performBasicMapping e) e = .ok out →
        processElement L e = generateFinalComponent out.comp ∧ 0.3 ≤ out.comp.quality) := by
  constructor
  · simpa [processElements] using hlen
  · intro e he
    constructor
    · intro err herr
      unfold processElement
      rw [herr]
    · intro out hok
      refine ⟨?_, (performAdaptiveOptimization_spec L e out hok).1⟩
      unfold processElement
      rw [hok]

/-- Claim C3 witness: the reference job processes to 3 artifacts and
its negative-width descriptor comes out optimized at quality `0.7`,
iteration `1` — not as a fallback. -/
theorem claim_C3_witness :
    (processElements jsLogModel jobThree).length = 3 ∧
    (processElement jsLogModel elemNegWidth = generateFinalComponent outNegWidth.comp ∧
      0.3 ≤ outNegWidth.comp.quality) :=
  ⟨(claim_C3 jsLogModel jobThree rfl).1,
   ((claim_C3 jsLogModel jobThree rfl).2 elemNegWidth (by simp [jobThree])).2
     outNegWidth runNegWidth_eq⟩

/-- Claim C8 counterexample: the variant generator is not total — the
color rule calls `startsWith` on the current value, so a numeric color
value makes it throw `TypeError` instead of returning a non-empty
list. -/
theorem claim_C8_counterexample :
    generateParamVariations "color" (JsVal.num 42) 0.05 = .error .typeError := by
  decide

/-- Claim C8 (amended): for a parameter with no defined variation rule
the generator returns exactly the singleton unchanged value; whenever
it returns at all, the list is non-empty; and it does return — with a
non-empty list — for every parameter other than `color` whatever the
current value is, and for `color` whenever the current value is a
string; only `color` holding a non-string value throws `TypeError`. -/
theorem claim_C8 (param : String) (currentValue : JsVal) (intensity : ℚ) :
    (paramVariationsLookup param = none →
      generateParamVariations param currentValue intensity = .ok [currentValue]) ∧
    (∀ l, generateParamVariations param currentValue intensity = .ok l → l ≠ []) ∧
    (param ≠ "color" ∨ (∃ s, currentValue = JsVal.str s) →
      ∃ l, generateParamVariations param currentValue intensity = .ok l ∧ l ≠ []) := by
  refine ⟨?_, ?_, ?_⟩
  · intro hp
    simp only [generateParamVariations, hp]
  · intro l hl
    cases hlk : paramVariationsLookup param with
    | none =>
      simp only [generateParamVariations, hlk, Except.ok.injEq] at hl
      rw [← hl]
      exact List.cons_ne_nil _ _
    | some bv =>
      have hbv := paramVariationsLookup_nonempty param bv hlk
      simp only [generateParamVariations, hlk] at hl
      by_cases hwh : (param = "width" || param = "height") = true
      · rw [if_pos hwh] at hl
        simp only [Except.ok.injEq] at hl
        subst hl
        simp only [ne_eq, List.map_eq_nil]
        exact hbv
      · rw [if_neg hwh] at hl
        by_cases hfs : param = "fontSize"
        · rw [if_pos hfs] at hl
          simp only [Except.ok.injEq] at hl
          subst hl
          simp only [ne_eq, List.map_eq_nil]
          exact hbv
        · rw [if_neg hfs] at hl
          exact genColorVariations_nonempty currentValue intensity l hl
  · intro hcase
    cases hlk : paramVariationsLookup param with
    | none =>
      refine ⟨[currentValue], ?_, List.cons_ne_nil _ _⟩
      simp only [generateParamVariations, hlk]
    | some bv =>
      rcases paramVariationsLookup_names param bv hlk with hw | hh | hf | hc
      · subst hw
        refine ⟨_, rfl, ?_⟩
        simp
      · subst hh
        refine ⟨_, rfl, ?_⟩
        simp
      · subst hf
        refine ⟨_, rfl, ?_⟩
        simp
      · subst hc
        rcases hcase with hne | ⟨s, hs⟩
        · exact absurd rfl hne
        · subst hs
          refine ⟨generateColorVariationsStr s intensity, rfl, ?_⟩
          simp only [generateColorVariationsStr]
          split
          · exact List.cons_ne_nil _ _
          · exact List.cons_ne_nil _ _

/-- Claim C8 witness: a parameter with no rule returns its unchanged
current value as a singleton, and the mainline numeric `width` value
generates a non-empty variation list. -/
theorem claim_C8_witness :
    generateParamVariations "borderRadius" (JsVal.str "4px") 0.05 =
      .ok [JsVal.str "4px"] ∧
    (∃ l, generateParamVariations "width" (JsVal.num 300) 0.05 = .ok l ∧ l ≠ []) :=
  ⟨(claim_C8 "borderRadius" (JsVal.str "4px") 0.05).1 rfl,
   (claim_C8 "width" (JsVal.num 300) 0.05).2.2 (Or.inl (by decide))⟩

end CWV3
